import Mathlib

/-!
# go-boilerplate: identity-api and dummy-api

A shallow embedding of the two services of the repository and the properties
of their authentication and ownership protocol.

* `GoStr`    : the few functions of the Go `strings` package the code calls.
* `GoFloat`  : the `float64` operations behind `Duration.Seconds` and the
               numbers of a decoded token.
* `Dummy`    : `dummy-api/internal/service/service.go` and
               `dummy-api/internal/auth/client.go`.
* `Identity` : `identity-api/internal/security/token.go` and
               `identity-api/internal/service/service.go`.

Go strings are modelled as Lean strings (sequences of Unicode code points).
Collaborators that are not part of the sources (the remote validator, the
UUID parser, the query layer, the clock, the HMAC primitive) are explicit
parameters, so every theorem holds for each of their behaviours.
-/

set_option autoImplicit false

namespace GoStr

/-- The predicate `unicode.IsSpace`: the white space code points of Go. -/
def isSpace (c : Char) : Bool :=
  c = '\t' || c = '\n' || c.toNat = 0x0B || c.toNat = 0x0C || c = '\r' || c = ' ' ||
  c.toNat = 0x85 || c.toNat = 0xA0 || c.toNat = 0x1680 ||
  (0x2000 ≤ c.toNat && c.toNat ≤ 0x200A) ||
  c.toNat = 0x2028 || c.toNat = 0x2029 || c.toNat = 0x202F || c.toNat = 0x205F ||
  c.toNat = 0x3000

/-- Drop the leading white space of a list of code points. -/
def trimLeft (l : List Char) : List Char :=
  l.dropWhile isSpace

/-- Drop the trailing white space of a list of code points. -/
def trimRight (l : List Char) : List Char :=
  (l.reverse.dropWhile isSpace).reverse

/-- The function `strings.TrimSpace`: remove leading and trailing white space. -/
def TrimSpace (s : String) : String :=
  ⟨trimRight (trimLeft s.data)⟩

/-- Cut a list of code points at its first space (U+0020): the text before it
and the text after it, or `none` when there is no space. -/
def cutSpace : List Char → Option (List Char × List Char)
  | [] => none
  | c :: cs =>
    if c = ' ' then some ([], cs)
    else match cutSpace cs with
      | none => none
      | some (a, b) => some (c :: a, b)

/-- The call `strings.SplitN(s, " ", 2)`: at most two parts, split at the
first space. -/
def SplitN2 (s : String) : List String :=
  match cutSpace s.data with
  | none => [s]
  | some (a, b) => [⟨a⟩, ⟨b⟩]

/-- The function `strings.EqualFold` for a second argument made of ASCII
letters none of which is `k` or `s`, the only use in the sources being
`EqualFold(x, "Bearer")`: for such a letter the only code points of its case
folding orbit are its two ASCII cases, so comparing the ASCII lower-casings
is exact. -/
def EqualFold (s t : String) : Bool :=
  s.data.map Char.toLower == t.data.map Char.toLower

end GoStr

namespace Pgx

/-- The type `uuid.UUID`, an array of sixteen bytes. -/
abbrev UUID := List (Fin 256)

/-- The type `pgtype.UUID`. -/
structure PgUUID where
  Bytes : UUID
  Valid : Bool
  deriving DecidableEq, Repr

/-- The zero value `pgtype.UUID{}`. -/
def PgUUID.zero : PgUUID :=
  { Bytes := List.replicate 16 0, Valid := false }

/-- An error returned by the query layer: its message, whether
`errors.Is(err, pgx.ErrNoRows)` holds for it, and the SQLSTATE code when
`errors.As` finds a `*pgconn.PgError` in it. -/
structure StoreError where
  msg : String
  isNoRows : Bool
  pgCode : Option String
  deriving DecidableEq, Repr

deriving instance DecidableEq for Except

/-- The sentinel `pgx.ErrNoRows`. -/
def ErrNoRows : StoreError :=
  { msg := "no rows in result set", isNoRows := true, pgCode := none }

end Pgx

namespace Dummy

open GoStr Pgx

/-- The type `auth.Claims` (client.go:13). -/
structure Claims where
  UserID : String
  Email : String
  deriving DecidableEq, Repr

/-- The errors the service methods return: the two typed errors of the design
and an error built by `fmt.Errorf("<context>: %w", err)`. -/
inductive ServiceError where
  | unauthorized (message : String)
  | notFound (message : String)
  | wrapped (context : String) (cause : StoreError)
  deriving DecidableEq, Repr

/-- The row type `db.Item`; `CreatedAt` is `none` for an invalid timestamp. -/
structure DbItem where
  ID : PgUUID
  Name : String
  Description : Option String
  OwnerID : PgUUID
  CreatedAt : Option Int
  deriving DecidableEq, Repr

/-- The result type `dummy.Item`. -/
structure Item where
  ID : String
  Name : String
  Description : Option String
  OwnerID : String
  CreatedAt : String
  deriving DecidableEq, Repr

/-- The argument `db.CreateItemParams`. -/
structure CreateItemParams where
  OwnerID : PgUUID
  Name : String
  Description : Option String
  deriving DecidableEq, Repr

/-- The argument `db.ListItemsParams`. -/
structure ListItemsParams where
  OwnerID : PgUUID
  Limit : Int
  Offset : Int
  deriving DecidableEq, Repr

/-- The argument `db.GetItemParams`. -/
structure GetItemParams where
  ID : PgUUID
  OwnerID : PgUUID
  deriving DecidableEq, Repr

/-- The argument `db.DeleteItemParams`. -/
structure DeleteItemParams where
  ID : PgUUID
  OwnerID : PgUUID
  deriving DecidableEq, Repr

/-- A call to the item store, with its argument. -/
inductive StoreCall where
  | CreateItem (arg : CreateItemParams)
  | ListItems (arg : ListItemsParams)
  | GetItem (arg : GetItemParams)
  | DeleteItem (arg : DeleteItemParams)
  deriving DecidableEq, Repr

/-- The owner id a store call carries. -/
def StoreCall.owner : StoreCall → PgUUID
  | .CreateItem arg => arg.OwnerID
  | .ListItems arg => arg.OwnerID
  | .GetItem arg => arg.OwnerID
  | .DeleteItem arg => arg.OwnerID

/-- What a service method does besides returning: calls to the validator,
calls to the store, and log records. -/
inductive Event where
  | validate (token : String)
  | store (call : StoreCall)
  | log (level : String) (msg : String) (attrs : List (String × String))
  deriving DecidableEq, Repr

/-- The store calls of a trace, in order. -/
def storeCalls : List Event → List StoreCall
  | [] => []
  | .store c :: es => c :: storeCalls es
  | _ :: es => storeCalls es

/-- The tokens passed to the validator in a trace, in order. -/
def validateCalls : List Event → List String
  | [] => []
  | .validate t :: es => t :: validateCalls es
  | _ :: es => validateCalls es

/-- The query layer `db.Queries` over a store state `σ`: each method takes its
argument and the state and gives its result and the next state. -/
structure Queries (σ : Type) where
  CreateItem : CreateItemParams → σ → Except StoreError DbItem × σ
  ListItems : ListItemsParams → σ → Except StoreError (List DbItem) × σ
  GetItem : GetItemParams → σ → Except StoreError DbItem × σ
  DeleteItem : DeleteItemParams → σ → Option StoreError × σ

/-- The collaborators of `Service`: the injected `IdentityValidator` (its
error is represented by its message), the library functions `uuid.Parse` and
`UUID.String`, the clock and RFC 3339 formatting used by `mapItem`, and the
query layer. -/
structure Env (σ : Type) where
  validator : String → Except String Claims
  uuidParse : String → Except String UUID
  uuidString : UUID → String
  now : Int
  formatRFC3339 : Int → String
  queries : Queries σ

/-- The payload `dummy.CreateItemPayload`. -/
structure CreateItemPayload where
  Token : String
  Name : String
  Description : Option String
  deriving DecidableEq, Repr

/-- The payload `dummy.ListItemsPayload`. -/
structure ListItemsPayload where
  Token : String
  deriving DecidableEq, Repr

/-- The payload `dummy.ItemIDPayload`. -/
structure ItemIDPayload where
  Token : String
  ID : String
  deriving DecidableEq, Repr

/-- The result of a service method: the returned value or error, the store
state afterwards, and the trace of what the method did. -/
structure Outcome (σ α : Type) where
  result : Except ServiceError α
  state : σ
  trace : List Event

/-- The function `extractToken` (service.go:155). -/
def extractToken (value : String) : String :=
  let value := TrimSpace value
  if value = "" then ""
  else
    match SplitN2 value with
    | [p0, p1] => if EqualFold p0 "Bearer" then TrimSpace p1 else value
    | _ => value

/-- The function `toUUID` (service.go:167). -/
def toUUID {σ : Type} (env : Env σ) (id : String) : Except String PgUUID :=
  match env.uuidParse id with
  | .error err => .error err
  | .ok parsed => .ok { Bytes := parsed, Valid := true }

/-- The function `mapItem` (service.go:178). -/
def mapItem {σ : Type} (env : Env σ) (item : DbItem) : Item :=
  let createdAt := match item.CreatedAt with
    | some t => t
    | none => env.now
  let owner := if item.OwnerID.Valid then env.uuidString item.OwnerID.Bytes else ""
  let id := if item.ID.Valid then env.uuidString item.ID.Bytes else ""
  { ID := id, Name := item.Name, Description := item.Description, OwnerID := owner,
    CreatedAt := env.formatRFC3339 createdAt }

/-- The method `Service.authorize` (service.go:141): the claims or the error,
and the validator calls made. -/
def authorize {σ : Type} (env : Env σ) (raw : String) :
    Except ServiceError Claims × List Event :=
  let token := extractToken raw
  if token = "" then
    (.error (.unauthorized "missing Authorization header"), [])
  else
    match env.validator token with
    | .error err => (.error (.unauthorized err), [.validate token])
    | .ok claims => (.ok claims, [.validate token])

/-- The method `Service.CreateItem` (service.go:38). -/
def CreateItem {σ : Type} (env : Env σ) (st : σ) (payload : CreateItemPayload) :
    Outcome σ Item :=
  match authorize env payload.Token with
  | (.error err, tr) => { result := .error err, state := st, trace := tr }
  | (.ok claims, tr) =>
    match toUUID env claims.UserID with
    | .error _ =>
      { result := .error (.unauthorized "invalid subject claim"), state := st, trace := tr }
    | .ok ownerID =>
      let arg : CreateItemParams :=
        { OwnerID := ownerID, Name := payload.Name, Description := payload.Description }
      match env.queries.CreateItem arg st with
      | (.error err, st1) =>
        { result := .error (.wrapped "create item" err), state := st1,
          trace := tr ++ [.store (.CreateItem arg)] }
      | (.ok item, st1) =>
        let result := mapItem env item
        { result := .ok result, state := st1,
          trace := tr ++ [.store (.CreateItem arg),
            .log "INFO" "created item" [("itemID", result.ID), ("ownerID", result.OwnerID)]] }

/-- The method `Service.ListItems` (service.go:64). -/
def ListItems {σ : Type} (env : Env σ) (st : σ) (payload : ListItemsPayload) :
    Outcome σ (List Item) :=
  match authorize env payload.Token with
  | (.error err, tr) => { result := .error err, state := st, trace := tr }
  | (.ok claims, tr) =>
    match toUUID env claims.UserID with
    | .error _ =>
      { result := .error (.unauthorized "invalid subject claim"), state := st, trace := tr }
    | .ok ownerID =>
      let arg : ListItemsParams := { OwnerID := ownerID, Limit := 50, Offset := 0 }
      match env.queries.ListItems arg st with
      | (.error err, st1) =>
        { result := .error (.wrapped "list items" err), state := st1,
          trace := tr ++ [.store (.ListItems arg)] }
      | (.ok rows, st1) =>
        { result := .ok (rows.map (mapItem env)), state := st1,
          trace := tr ++ [.store (.ListItems arg)] }

/-- The method `Service.GetItem` (service.go:89). -/
def GetItem {σ : Type} (env : Env σ) (st : σ) (payload : ItemIDPayload) :
    Outcome σ Item :=
  match authorize env payload.Token with
  | (.error err, tr) => { result := .error err, state := st, trace := tr }
  | (.ok claims, tr) =>
    match toUUID env claims.UserID with
    | .error _ =>
      { result := .error (.unauthorized "invalid subject claim"), state := st, trace := tr }
    | .ok ownerID =>
      match toUUID env payload.ID with
      | .error _ =>
        { result := .error (.notFound "invalid item id"), state := st, trace := tr }
      | .ok itemID =>
        let arg : GetItemParams := { ID := itemID, OwnerID := ownerID }
        match env.queries.GetItem arg st with
        | (.error err, st1) =>
          if err.isNoRows then
            { result := .error (.notFound "item not found"), state := st1,
              trace := tr ++ [.store (.GetItem arg)] }
          else
            { result := .error (.wrapped "get item" err), state := st1,
              trace := tr ++ [.store (.GetItem arg)] }
        | (.ok item, st1) =>
          { result := .ok (mapItem env item), state := st1,
            trace := tr ++ [.store (.GetItem arg)] }

/-- The method `Service.DeleteItem` (service.go:117). -/
def DeleteItem {σ : Type} (env : Env σ) (st : σ) (payload : ItemIDPayload) :
    Outcome σ Unit :=
  match authorize env payload.Token with
  | (.error err, tr) => { result := .error err, state := st, trace := tr }
  | (.ok claims, tr) =>
    match toUUID env claims.UserID with
    | .error _ =>
      { result := .error (.unauthorized "invalid subject claim"), state := st, trace := tr }
    | .ok ownerID =>
      match toUUID env payload.ID with
      | .error _ =>
        { result := .error (.notFound "invalid item id"), state := st, trace := tr }
      | .ok itemID =>
        let arg : DeleteItemParams := { ID := itemID, OwnerID := ownerID }
        match env.queries.DeleteItem arg st with
        | (some err, st1) =>
          { result := .error (.wrapped "delete item" err), state := st1,
            trace := tr ++ [.store (.DeleteItem arg)] }
        | (none, st1) =>
          { result := .ok (), state := st1,
            trace := tr ++ [.store (.DeleteItem arg),
              .log "INFO" "deleted item" [("itemID", payload.ID), ("ownerID", claims.UserID)]] }

/-- The message `identitypb.ValidateTokenResponse`; the optional fields are
`none` when unset. -/
structure ValidateTokenResponse where
  Valid : Bool
  UserId : Option String
  Email : Option String
  Reason : Option String
  deriving DecidableEq, Repr

/-- The method `Client.Validate` (client.go:28); `identity` is the remote call
`c.identity.ValidateToken`, whose failure is a transport error represented by
its message. -/
def Client.Validate (identity : String → Except String ValidateTokenResponse)
    (token : String) : Except String Claims :=
  match identity token with
  | .error err => .error err
  | .ok resp =>
    if !resp.Valid then
      match resp.Reason with
      | some reason => .error reason
      | none => .error "token validation failed"
    else
      .ok { UserID := resp.UserId.getD "", Email := resp.Email.getD "" }

/-- Modelled from the spec: the query layer `internal/db/sqlc` and its SQL are
not among the sources. The store is the list of item rows. Following section
4.4 of the spec, create inserts a row with the given owner, list returns only
the rows matching the owner (one page, offset-based), get and delete are
scoped by the compound predicate `(id, owner)`. A get that finds no row
reports `pgx.ErrNoRows`, the error `Service.GetItem` tests for; a delete
reports no error. The identifier and timestamp the database assigns to a new
row are given by `newID` and `stamp`. -/
def memQueries (newID : List DbItem → UUID) (stamp : Int) : Queries (List DbItem) where
  CreateItem arg rows :=
    let item : DbItem :=
      { ID := { Bytes := newID rows, Valid := true }, Name := arg.Name,
        Description := arg.Description, OwnerID := arg.OwnerID, CreatedAt := some stamp }
    (.ok item, rows ++ [item])
  ListItems arg rows :=
    (.ok (((rows.filter (fun r => r.OwnerID = arg.OwnerID)).drop arg.Offset.toNat).take
      arg.Limit.toNat), rows)
  GetItem arg rows :=
    match rows.find? (fun r => r.ID = arg.ID ∧ r.OwnerID = arg.OwnerID) with
    | some r => (.ok r, rows)
    | none => (.error ErrNoRows, rows)
  DeleteItem arg rows :=
    (none, rows.filter (fun r => ¬ (r.ID = arg.ID ∧ r.OwnerID = arg.OwnerID)))

/-- Store states in which the item identifier is a key: two rows with the same
identifier are the same row. -/
def UniqueIDs (rows : List DbItem) : Prop :=
  ∀ r1 ∈ rows, ∀ r2 ∈ rows, r1.ID = r2.ID → r1 = r2

end Dummy

namespace GoFloat

/-- Whether the quotient `a / b` is at least `2 ^ k`, for a positive `b`. -/
def geTwoPow (a b : Nat) (k : Int) : Bool :=
  if 0 ≤ k then decide (b * 2 ^ k.toNat ≤ a) else decide (b ≤ a * 2 ^ (-k).toNat)

/-- The number of binary digits of `n`, found by halving it at most `fuel`
times. -/
def bitLength : Nat → Nat → Nat
  | 0, _ => 0
  | fuel + 1, n => if n = 0 then 0 else bitLength fuel (n / 2) + 1

/-- The floor of the binary logarithm of a positive natural number. -/
def log2 (n : Nat) : Nat :=
  bitLength n n - 1

/-- The exponent of the binade of `a / b`, the floor of its binary logarithm,
for positive `a` and `b`. -/
def log2Floor (a b : Nat) : Int :=
  let k : Int := (log2 a : Int) - (log2 b : Int)
  if geTwoPow a b k then k else k - 1

/-- The quotient `n / d` rounded to the nearest natural number, a tie going to
the even one. -/
def roundHalfEven (n d : Nat) : Nat :=
  let q := n / d
  let r := n % d
  if 2 * r < d then q else if d < 2 * r then q + 1 else if q % 2 = 0 then q else q + 1

/-- The positive quotient `a / b` rounded to `float64`: fifty-three significant
bits, or a multiple of `2 ^ (-1074)` for a subnormal result, rounding to
nearest with ties to even. Results beyond the largest `float64` do not
occur in the uses below. -/
def roundPos (a b : Nat) : Rat :=
  let e : Int := max (log2Floor a b - 52) (-1074)
  let up : Nat := 2 ^ e.toNat
  let down : Nat := 2 ^ (-e).toNat
  mkRat (roundHalfEven (a * down) (b * up) * up) down

/-- The value of a `float64` operation whose exact result is `q`: the nearest
`float64`. It is also the conversion `float64(n)` of an integer and the value
read from a decimal number. -/
def round (q : Rat) : Rat :=
  if q = 0 then 0
  else if 0 < q then roundPos q.num.natAbs q.den
  else -roundPos q.num.natAbs q.den

/-- The conversion `int64(x)` of a `float64` within the range of `int64`: the
fraction is discarded, rounding toward zero. -/
def trunc (q : Rat) : Int :=
  if 0 ≤ q then ⌊q⌋ else -⌊-q⌋

end GoFloat

namespace Identity

open Pgx

/-- The row type `db.User`; `CreatedAt` is `none` for an invalid timestamp. -/
structure User where
  ID : PgUUID
  Email : String
  PasswordHash : String
  DisplayName : String
  CreatedAt : Option Int
  deriving DecidableEq, Repr

/-- The type `security.TokenManager`: the secret and the time to live, a
`time.Duration` in nanoseconds. -/
structure TokenManager where
  secret : String
  ttl : Int
  deriving DecidableEq, Repr

/-- The type `security.Claims` (token.go:19). -/
structure Claims where
  UserID : String
  Email : String
  deriving DecidableEq, Repr

/-- The constant `time.Second`, in nanoseconds. -/
def Second : Int := 1000000000

/-- The constant `time.Hour`, in nanoseconds. -/
def Hour : Int := 3600 * Second

/-- The function `NewTokenManager` (token.go:25). -/
def NewTokenManager (secret : String) (ttl : Int) : TokenManager :=
  if ttl ≤ 0 then { secret := secret, ttl := Hour } else { secret := secret, ttl := ttl }

/-- The method `Duration.Seconds` of a duration `d` in nanoseconds:
`float64(sec) + float64(nsec)/1e9` for the quotient and remainder of `d` by a
second, each operation rounded to `float64`. -/
def Seconds (d : Int) : Rat :=
  let sec := Int.tdiv d Second
  let nsec := Int.tmod d Second
  GoFloat.round (GoFloat.round sec + GoFloat.round (GoFloat.round nsec / 1000000000))

/-- A claim value as `jwt.MapClaims` holds it: a string, a number with its
value (after JSON decoding, a `float64`), or a value of another type. -/
inductive JVal where
  | str (s : String)
  | num (value : Rat)
  | other
  deriving DecidableEq, Repr

/-- The type `jwt.MapClaims`. -/
abbrev MapClaims := List (String × JVal)

/-- The families of signing methods registered by the jwt library. -/
inductive Method where
  | HMAC
  | RSA
  | RSAPSS
  | ECDSA
  | Ed25519
  | None
  deriving DecidableEq, Repr

/-- The function `jwt.GetSigningMethod`: the method registered under an `alg`
name. `HS256`, `HS384` and `HS512` are the three values of type
`*jwt.SigningMethodHMAC`. -/
def GetSigningMethod (alg : String) : Option Method :=
  if alg = "HS256" ∨ alg = "HS384" ∨ alg = "HS512" then some .HMAC
  else if alg = "RS256" ∨ alg = "RS384" ∨ alg = "RS512" then some .RSA
  else if alg = "PS256" ∨ alg = "PS384" ∨ alg = "PS512" then some .RSAPSS
  else if alg = "ES256" ∨ alg = "ES384" ∨ alg = "ES512" then some .ECDSA
  else if alg = "EdDSA" then some .Ed25519
  else if alg = "none" then some .None
  else none

/-- A token string that splits into three decodable segments, seen through
its decoding: the text that is signed (the first two segments), the `alg`
header when it is a string, the claims, and the decoded signature. -/
structure Token where
  signingInput : String
  alg : Option String
  claims : MapClaims
  signature : String
  deriving DecidableEq, Repr

/-- A token string as the jwt parser sees it: either it does not split into
three decodable segments (with the parser message saying why), or it does. -/
inductive TokenString where
  | malformed (why : String)
  | wellFormed (t : Token)
  deriving DecidableEq, Repr

/-- A check of the claims validator that failed: the token is expired, it is
not valid yet, or the claim under a key has a type that is not a number. -/
inductive ClaimFailure where
  | expired
  | notValidYet
  | invalidType (key : String)
  deriving DecidableEq, Repr

/-- The ways `jwt.Parse` fails, in the order it checks: the string is
malformed, the header names no signing method, the named method is not
registered, the key function returned an error, the signature does not verify,
the claims validator reported failures. -/
inductive ParseError where
  | malformed (why : String)
  | algUnspecified
  | algUnavailable
  | keyFunc (err : String)
  | signatureInvalid
  | invalidClaims (failures : List ClaimFailure)
  deriving DecidableEq, Repr

/-- The parts of the jwt library that are left abstract: the serialisation of
a header and claims into the text that is signed, the HMAC of a text under a
key for the hash named by `alg`, the second of the `time.Time` built from a
number beyond the seconds that `int64` arithmetic handles exactly (it depends
on the platform), and the text of an error. -/
structure JwtLib where
  encode : String → MapClaims → String
  hmac : String → String → String → String
  farDate : Rat → Int
  errorText : ParseError → String

/-- The claims as they are read back from a token: JSON decoding turns every
number into the nearest `float64`. -/
def decodeClaims (claims : MapClaims) : MapClaims :=
  claims.map fun kv =>
    match kv.2 with
    | .num v => (kv.1, .num (GoFloat.round v))
    | _ => kv

/-- The calls `jwt.NewWithClaims(method, claims)` and `token.SignedString(key)`
for an HMAC method named `alg`: the token string signed under `key`, which
decodes to these claims. Signing with a byte slice key does not fail. -/
def SignedString (lib : JwtLib) (alg : String) (claims : MapClaims) (key : String) :
    TokenString :=
  .wellFormed
    { signingInput := lib.encode alg claims, alg := some alg, claims := decodeClaims claims,
      signature := lib.hmac alg key (lib.encode alg claims) }

/-- The method `Method.Verify` with a byte slice key: an HMAC method recomputes
the MAC and compares; every other method rejects a byte slice key. -/
def Verify (lib : JwtLib) (method : Method) (alg : String) (t : Token) (key : String) :
    Bool :=
  match method with
  | .HMAC => t.signature == lib.hmac alg key t.signingInput
  | _ => false

/-- The second (since the epoch) of the date `newNumericDateFromSeconds(v)`: the
number is split into its integer part and fraction, `time.Unix` is called with
the integer part and the fraction in nanoseconds, and the date is truncated to
the second. -/
def numericDate (lib : JwtLib) (v : Rat) : Int :=
  let sec := GoFloat.trunc v
  let nsec := GoFloat.trunc (GoFloat.round ((v - sec) * 1000000000))
  if -(2 ^ 62) ≤ sec ∧ sec ≤ 2 ^ 62 then (sec * 1000000000 + nsec) / 1000000000
  else lib.farDate v

/-- The accessor `MapClaims.parseNumericDate`: no date when the key is absent
or holds the number zero, the date when the value is another number, a
failure for a value of another type. -/
def parseNumericDate (lib : JwtLib) (claims : MapClaims) (key : String) :
    Except ClaimFailure (Option Int) :=
  match claims.lookup key with
  | none => .ok none
  | some (.num v) => if v = 0 then .ok none else .ok (some (numericDate lib v))
  | some _ => .error (.invalidType key)

/-- The check of `exp` at the instant `now` (nanoseconds since the epoch), with
no leeway: when the claims carry an expiry, the token is expired unless `now`
is before it. -/
def verifyExpiresAt (lib : JwtLib) (now : Int) (claims : MapClaims) : Option ClaimFailure :=
  match parseNumericDate lib claims "exp" with
  | .error f => some f
  | .ok none => none
  | .ok (some e) => if now < e * Second then none else some .expired

/-- The check of `nbf` at the instant `now`, with no leeway: when the claims
carry a not before date, the token is not valid yet while `now` is before
it. -/
def verifyNotBefore (lib : JwtLib) (now : Int) (claims : MapClaims) : Option ClaimFailure :=
  match parseNumericDate lib claims "nbf" with
  | .error f => some f
  | .ok none => none
  | .ok (some n) => if n * Second ≤ now then none else some .notValidYet

/-- The default claims validator of `jwt.Parse` at the instant `now`: it checks
`exp`, then `nbf`, and reports every failure; `iat`, the audience, the issuer
and the subject are not checked. -/
def validateClaims (lib : JwtLib) (now : Int) (claims : MapClaims) : List ClaimFailure :=
  (verifyExpiresAt lib now claims).toList ++ (verifyNotBefore lib now claims).toList

/-- The result `*jwt.Token` of a parse. -/
structure Parsed where
  Valid : Bool
  Header : Option String
  Claims : MapClaims
  deriving DecidableEq, Repr

/-- The function `jwt.Parse` at the instant `now`: decode, look the signing
method up, ask `keyFunc` for the key, verify the signature, validate the
claims. -/
def Parse (lib : JwtLib) (now : Int) (tokenString : TokenString)
    (keyFunc : Method → Option String → Except String String) : Except ParseError Parsed :=
  match tokenString with
  | .malformed why => .error (.malformed why)
  | .wellFormed t =>
    match t.alg with
    | none => .error .algUnspecified
    | some alg =>
      match GetSigningMethod alg with
      | none => .error .algUnavailable
      | some method =>
        match keyFunc method t.alg with
        | .error err => .error (.keyFunc err)
        | .ok key =>
          if Verify lib method alg t key then
            match validateClaims lib now t.claims with
            | [] => .ok { Valid := true, Header := t.alg, Claims := t.claims }
            | f :: fs => .error (.invalidClaims (f :: fs))
          else .error .signatureInvalid

/-- The type assertion `claims[key].(string)` with the comma-ok result
discarded: the string, or the empty string. -/
def claimString (claims : MapClaims) (key : String) : String :=
  match claims.lookup key with
  | some (.str s) => s
  | _ => ""

/-- The method `TokenManager.Issue` (token.go:33). `nowIat` and `nowExp` are the
two readings of `time.Now()`, in nanoseconds since the epoch; a numeric date is
truncated to the second. -/
def Issue (lib : JwtLib) (uuidString : UUID → String) (m : TokenManager) (user : User)
    (nowIat nowExp : Int) : Except String (TokenString × Int) :=
  let userID := if user.ID.Valid then uuidString user.ID.Bytes else ""
  if userID = "" then .error "user id is empty"
  else
    let issuedAt := nowIat / Second
    let expiresAt := (nowExp + m.ttl) / Second
    let claims : MapClaims :=
      [("sub", .str userID), ("iat", .num issuedAt), ("exp", .num expiresAt),
       ("email", .str user.Email)]
    .ok (SignedString lib "HS256" claims m.secret, m.ttl)

/-- The key function of `TokenManager.Validate` (token.go:65): the secret for a
method of type `*jwt.SigningMethodHMAC`, an error for any other. -/
def keyFunc (m : TokenManager) (method : Method) (alg : Option String) :
    Except String String :=
  match method with
  | .HMAC => .ok m.secret
  | _ => .error ("unexpected signing method: " ++ alg.getD "")

/-- The method `TokenManager.Validate` (token.go:64) at the instant `now`. An
error of `jwt.Parse` is returned as it is, here with its text. The claims of a
token parsed by `jwt.Parse` are always a `jwt.MapClaims`. -/
def Validate (lib : JwtLib) (m : TokenManager) (now : Int) (tokenString : TokenString) :
    Except String Claims :=
  match Parse lib now tokenString (keyFunc m) with
  | .error err => .error (lib.errorText err)
  | .ok parsed =>
    if !parsed.Valid then .error "token invalid"
    else
      let sub := claimString parsed.Claims "sub"
      let email := claimString parsed.Claims "email"
      if sub = "" then .error "token missing subject"
      else .ok { UserID := sub, Email := email }

/-- The errors the identity service methods return: the typed
`identity.UnauthorizedError` and an error built by
`fmt.Errorf("<context>: %w", err)`, with the message of its cause. -/
inductive IdError where
  | unauthorized (message : String)
  | wrapped (context : String) (cause : String)
  deriving DecidableEq, Repr

/-- A record written to the logger. -/
structure LogRecord where
  level : String
  msg : String
  attrs : List (String × String)
  deriving DecidableEq, Repr

/-- The argument `db.CreateUserParams`. -/
structure CreateUserParams where
  Email : String
  PasswordHash : String
  DisplayName : String
  deriving DecidableEq, Repr

/-- The payload `identity.RegisterPayload`. -/
structure RegisterPayload where
  Email : String
  Password : String
  DisplayName : String
  deriving DecidableEq, Repr

/-- The payload `identity.Credentials`. -/
structure Credentials where
  Email : String
  Password : String
  deriving DecidableEq, Repr

/-- The payload `identity.ValidateTokenPayload`. -/
structure ValidateTokenPayload where
  Token : TokenString
  deriving DecidableEq, Repr

/-- The result type `identity.User`. -/
structure UserView where
  ID : String
  Email : String
  DisplayName : String
  CreatedAt : String
  deriving DecidableEq, Repr

/-- The result type `identity.TokenResult`. -/
structure TokenResult where
  AccessToken : TokenString
  ExpiresIn : Int
  deriving DecidableEq, Repr

/-- The result type `identity.ValidationResult`; the optional fields are `none`
when unset. -/
structure ValidationResult where
  Valid : Bool
  UserID : Option String
  Email : Option String
  Reason : Option String
  deriving DecidableEq, Repr

/-- The type `service.Service` of identity-api with its collaborators: the two
queries it calls (each gives the answer of the store), the token manager, the
bcrypt functions (`CompareHashAndPassword` is `true` when bcrypt returns no
error), the jwt primitives, `UUID.String`, and the clock and RFC 3339
formatting used by `mapUser`. -/
structure Service where
  CreateUser : CreateUserParams → Except StoreError User
  GetUserByEmail : String → Except StoreError User
  tokens : TokenManager
  GenerateFromPassword : String → Except String String
  CompareHashAndPassword : String → String → Bool
  lib : JwtLib
  uuidString : UUID → String
  now : Int
  formatRFC3339 : Int → String

/-- The function `mapUser` (service.go:95). -/
def mapUser (s : Service) (u : User) : UserView :=
  let createdAt := match u.CreatedAt with
    | some t => t
    | none => s.now
  let id := if u.ID.Valid then s.uuidString u.ID.Bytes else ""
  { ID := id, Email := u.Email, DisplayName := u.DisplayName,
    CreatedAt := s.formatRFC3339 createdAt }

/-- The method `Service.Register` (service.go:32): the result and the log
records written. -/
def Register (s : Service) (payload : RegisterPayload) :
    Except IdError UserView × List LogRecord :=
  match s.GenerateFromPassword payload.Password with
  | .error err => (.error (.wrapped "hash password" err), [])
  | .ok hashed =>
    match s.CreateUser
      { Email := payload.Email, PasswordHash := hashed, DisplayName := payload.DisplayName } with
    | .error err =>
      if err.pgCode = some "23505" then (.error (.wrapped "email already exists" err.msg), [])
      else (.error (.wrapped "create user" err.msg), [])
    | .ok user =>
      let result := mapUser s user
      (.ok result,
        [{ level := "INFO", msg := "registered user", attrs := [("userID", result.ID)] }])

/-- The method `Service.Login` (service.go:57): the result and the log records
written. `nowIat` and `nowExp` are the clock readings of `Issue`. The field
`ExpiresIn` is `int(ttl.Seconds())` on a platform whose `int` has 64 bits. -/
def Login (s : Service) (nowIat nowExp : Int) (payload : Credentials) :
    Except IdError TokenResult × List LogRecord :=
  match s.GetUserByEmail payload.Email with
  | .error err =>
    if err.isNoRows then
      (.error (.unauthorized "invalid credentials"),
        [{ level := "WARN", msg := "login failed: user not found",
           attrs := [("email", payload.Email)] }])
    else (.error (.wrapped "get user by email" err.msg), [])
  | .ok user =>
    if s.CompareHashAndPassword user.PasswordHash payload.Password then
      match Issue s.lib s.uuidString s.tokens user nowIat nowExp with
      | .error err => (.error (.wrapped "issue token" err), [])
      | .ok (signed, ttl) =>
        (.ok { AccessToken := signed, ExpiresIn := GoFloat.trunc (Seconds ttl) }, [])
    else
      (.error (.unauthorized "invalid credentials"),
        [{ level := "WARN", msg := "login failed: password mismatch",
           attrs := [("email", payload.Email)] }])

/-- The method `Service.ValidateToken` (service.go:81) at the instant `now`: the
result and the log records written. -/
def ValidateToken (s : Service) (now : Int) (payload : ValidateTokenPayload) :
    Except IdError ValidationResult × List LogRecord :=
  match Validate s.lib s.tokens now payload.Token with
  | .error err =>
    (.ok { Valid := false, UserID := none, Email := none, Reason := some err },
      [{ level := "WARN", msg := "token validation failed", attrs := [("error", err)] }])
  | .ok claims =>
    (.ok { Valid := true, UserID := some claims.UserID, Email := some claims.Email,
           Reason := none }, [])

end Identity

/-! ## Properties stated over the embedding -/

namespace Dummy

open GoStr Pgx

/-- Authorization of the header value `raw` fails: the extracted credential is
empty, or the validator returns an error for it. -/
def AuthFails {σ : Type} (env : Env σ) (raw : String) : Prop :=
  extractToken raw = "" ∨ ∃ err, env.validator (extractToken raw) = .error err

/-- Every store call of the trace `tr` carries, as a valid owner id, the UUID
parsed from the subject of the claims the validator returned for the
credential of `raw`. -/
def OwnerIsSubject {σ : Type} (env : Env σ) (raw : String) (tr : List Event) : Prop :=
  ∀ call ∈ storeCalls tr, ∃ claims parsed,
    env.validator (extractToken raw) = .ok claims ∧
    env.uuidParse claims.UserID = .ok parsed ∧
    call.owner = { Bytes := parsed, Valid := true }

/-- The environment wired as in `serve.go`: the validator is the gRPC client
`auth.Client` over the remote call `identity`. -/
def withClient {σ : Type} (env : Env σ)
    (identity : String → Except String ValidateTokenResponse) : Env σ :=
  { env with validator := Client.Validate identity }

/-- The canonical text of the identifier of owner A in the examples. -/
def idA : String := "00000000-0000-0000-0000-00000000000a"

/-- The canonical text of the identifier of owner B in the examples. -/
def idB : String := "00000000-0000-0000-0000-00000000000b"

/-- The canonical text of the identifier of the first item in the examples. -/
def id1 : String := "00000000-0000-0000-0000-000000000001"

/-- The canonical text of the identifier of the second item in the examples. -/
def id2 : String := "00000000-0000-0000-0000-000000000002"

/-- The sixteen bytes whose last byte is `b` and whose other bytes are zero. -/
def lastByte (b : Fin 256) : UUID :=
  List.replicate 15 0 ++ [b]

/-- A test double for `uuid.Parse`: it parses the four identifiers of the
examples, as the library does, and rejects every other text. -/
def demoParse (s : String) : Except String UUID :=
  if s = idA then .ok (lastByte 10)
  else if s = idB then .ok (lastByte 11)
  else if s = id1 then .ok (lastByte 1)
  else if s = id2 then .ok (lastByte 2)
  else .error "invalid UUID length"

/-- A test double for `UUID.String` on the identifiers of the examples. -/
def demoString (u : UUID) : String :=
  if u = lastByte 10 then idA
  else if u = lastByte 11 then idB
  else if u = lastByte 1 then id1
  else if u = lastByte 2 then id2
  else "ffffffff-ffff-ffff-ffff-ffffffffffff"

/-- A test double for the validator: `token-a` belongs to owner A, `token-b` to
owner B, `token-x` has a subject that is not a UUID, every other token is
rejected. -/
def demoValidator (token : String) : Except String Claims :=
  if token = "token-a" then .ok { UserID := idA, Email := "a@x.com" }
  else if token = "token-b" then .ok { UserID := idB, Email := "b@x.com" }
  else if token = "token-x" then .ok { UserID := "not-a-uuid", Email := "x@x.com" }
  else .error "token is malformed"

/-- The identifier the store of the examples assigns to a new row: the count of
rows plus one. -/
def demoNewID (rows : List DbItem) : UUID :=
  lastByte (Fin.ofNat (rows.length + 1))

/-- The environment of the examples: the test doubles over the store
`memQueries`, which numbers new rows from the count of rows. -/
def demoEnv : Env (List DbItem) :=
  { validator := demoValidator
    uuidParse := demoParse
    uuidString := demoString
    now := 0
    formatRFC3339 := fun _ => "1970-01-01T00:00:00Z"
    queries := memQueries demoNewID 0 }

/-- The row of the examples: item 1, owned by A. -/
def rowA : DbItem :=
  { ID := { Bytes := lastByte 1, Valid := true }, Name := "n", Description := some "d",
    OwnerID := { Bytes := lastByte 10, Valid := true }, CreatedAt := some 0 }

/-- An outcome that returns the error `e`, leaves the store state `st` as it
was and contains no store call. -/
def FailsUntouched {σ α : Type} (o : Outcome σ α) (e : ServiceError) (st : σ) : Prop :=
  o.result = .error e ∧ o.state = st ∧ storeCalls o.trace = []

/-- The environment `env` over the store `memQueries`. -/
def withMemStore {σ : Type} (env : Env σ) (newID : List DbItem → UUID) (stamp : Int) :
    Env (List DbItem) :=
  { validator := env.validator
    uuidParse := env.uuidParse
    uuidString := env.uuidString
    now := env.now
    formatRFC3339 := env.formatRFC3339
    queries := memQueries newID stamp }

/-- A remote validation service for the examples: it is unreachable for the
token `down`, accepts `token-a`, and rejects every other token as expired. -/
def demoIdentity (token : String) : Except String ValidateTokenResponse :=
  if token = "down" then .error "rpc error: code = Unavailable"
  else if token = "token-a" then
    .ok { Valid := true, UserId := some idA, Email := some "a@x.com", Reason := none }
  else .ok { Valid := false, UserId := none, Email := none, Reason := some "token is expired" }

/-- A variant of `memQueries` whose delete reports `pgx.ErrNoRows` when no row
matches the compound predicate, the other behaviour a query layer can have. -/
def memQueriesStrict (newID : List DbItem → UUID) (stamp : Int) : Queries (List DbItem) :=
  { memQueries newID stamp with
    DeleteItem := fun arg rows =>
      if rows.any (fun r => r.ID = arg.ID ∧ r.OwnerID = arg.OwnerID) then
        (none, rows.filter (fun r => ¬ (r.ID = arg.ID ∧ r.OwnerID = arg.OwnerID)))
      else (some ErrNoRows, rows) }

/-- The environment of the examples over `memQueriesStrict`. -/
def demoEnvStrict : Env (List DbItem) :=
  { demoEnv with queries := memQueriesStrict demoNewID 0 }

end Dummy

namespace Identity

open Pgx

/-- A test double for the jwt primitives: the signed text lists the algorithm
and the subject, and the MAC is the text tagged with the algorithm and key. -/
def demoLib : JwtLib :=
  { encode := fun alg claims => alg ++ "." ++ claimString claims "sub"
    hmac := fun alg key msg => alg ++ ":" ++ key ++ ":" ++ msg
    farDate := fun _ => 0
    errorText := fun e =>
      match e with
      | .malformed why => "token is malformed: " ++ why
      | .algUnspecified => "token is unverifiable: signing method (alg) is unspecified"
      | .algUnavailable => "token is unverifiable: signing method (alg) is unavailable"
      | .keyFunc err => "token is unverifiable: error while executing keyfunc: " ++ err
      | .signatureInvalid => "token signature is invalid: signature is invalid"
      | .invalidClaims _ => "token has invalid claims" }

/-- The user of the examples. -/
def demoUser : User :=
  { ID := { Bytes := Dummy.lastByte 10, Valid := true }, Email := "a@x.com",
    PasswordHash := "hash:changeme123", DisplayName := "Ann", CreatedAt := some 0 }

/-- The service of the examples: one registered user, a one hour time to live,
and test doubles for bcrypt, the jwt primitives and the store. -/
def demoService : Service :=
  { CreateUser := fun arg =>
      if arg.Email = "a@x.com" then
        .error { msg := "duplicate key value violates unique constraint", isNoRows := false,
                 pgCode := some "23505" }
      else
        .ok { ID := { Bytes := Dummy.lastByte 11, Valid := true }, Email := arg.Email,
              PasswordHash := arg.PasswordHash, DisplayName := arg.DisplayName,
              CreatedAt := some 0 }
    GetUserByEmail := fun email =>
      if email = "a@x.com" then .ok demoUser else .error ErrNoRows
    tokens := NewTokenManager "secret" 0
    GenerateFromPassword := fun pw => .ok ("hash:" ++ pw)
    CompareHashAndPassword := fun hash pw => hash == "hash:" ++ pw
    lib := demoLib
    uuidString := Dummy.demoString
    now := 0
    formatRFC3339 := fun _ => "1970-01-01T00:00:00Z" }

/-- The decoded token of the examples for the method named `alg` and the number
`exp` under the key `exp`: signed under the secret of `demoService`, for the
subject A. -/
def demoSignedAt (alg : String) (exp : Rat) : Token :=
  { signingInput := demoLib.encode alg
      [("sub", .str Dummy.idA), ("exp", .num exp), ("email", .str "a@x.com")]
    alg := some alg
    claims := [("sub", .str Dummy.idA), ("exp", .num exp), ("email", .str "a@x.com")]
    signature := demoLib.hmac alg "secret"
      (demoLib.encode alg
        [("sub", .str Dummy.idA), ("exp", .num exp), ("email", .str "a@x.com")]) }

/-- The decoded token of the examples for the method named `alg`, expiring at
second 100. -/
def demoSigned (alg : String) : Token :=
  demoSignedAt alg 100

end Identity

namespace GoStr

/-- A header value that is empty or consists only of white space. -/
def blank (s : String) : Bool :=
  s.data.all isSpace

end GoStr

namespace Dummy

open GoStr Pgx

/-- The reference definition of the credential of a header value, following
the words of the spec: let `w` be the value with surrounding white space
trimmed; if `w` has the form `s ++ " " ++ rest` where `s` equals `Bearer` under
case-insensitive comparison (such an `s` has six code points), the result is
`rest` with surrounding white space trimmed; otherwise it is `w` itself. -/
def extractTokenSpec (v : String) : String :=
  let w := TrimSpace v
  if EqualFold ⟨w.data.take 6⟩ "Bearer" ∧ (w.data.drop 6).head? = some ' ' then
    TrimSpace ⟨w.data.drop 7⟩
  else w

end Dummy

namespace Identity

open Pgx

/-- The kinds of error of the identity service: an error the design declares
(`Error("unauthorized", ...)`, carried by `identity.UnauthorizedError`), or a
plain Go error that the design does not declare. -/
inductive ErrorKind where
  | unauthorized
  | undeclared
  deriving DecidableEq, Repr

/-- The kind of an error returned by a method of the identity service. -/
def IdError.kind : IdError → ErrorKind
  | .unauthorized _ => .unauthorized
  | .wrapped _ _ => .undeclared

/-- The claims of a token string; none for a malformed one. -/
def TokenString.claims : TokenString → MapClaims
  | .malformed _ => []
  | .wellFormed t => t.claims

/-- The service of the examples with a time to live of one second and a
half. -/
def demoServiceHalf : Service :=
  { demoService with tokens := NewTokenManager "secret" 1500000000 }

/-- The service of the examples over a store that cannot be reached. -/
def demoServiceDown : Service :=
  { demoService with
    CreateUser := fun _ =>
      .error { msg := "connection refused", isNoRows := false, pgCode := none } }

end Identity

/-! ## Theorems: float64 arithmetic -/

namespace GoFloat

theorem roundHalfEven_one (n : Nat) : roundHalfEven n 1 = n := by
  simp [roundHalfEven, Nat.mod_one]

theorem bitLength_zero (fuel : Nat) : bitLength fuel 0 = 0 := by
  cases fuel <;> simp [bitLength]

/-- With enough fuel, `bitLength` is the number of binary digits. -/
theorem bitLength_bounds (fuel n : Nat) (hf : n ≤ fuel) (hn : n ≠ 0) :
    2 ^ (bitLength fuel n - 1) ≤ n ∧ n < 2 ^ bitLength fuel n := by
  induction fuel generalizing n with
  | zero => omega
  | succ f ih =>
    simp only [bitLength, hn, if_false, Nat.add_sub_cancel]
    by_cases h2 : n / 2 = 0
    · have h1 : n = 1 := by omega
      subst h1
      simp [bitLength_zero]
    · obtain ⟨ih1, ih2⟩ := ih (n / 2) (by omega) h2
      have hb : bitLength f (n / 2) ≠ 0 := by
        intro h0
        rw [h0] at ih2
        simp at ih2
        exact h2 ih2
      have hp : 2 ^ bitLength f (n / 2) = 2 * 2 ^ (bitLength f (n / 2) - 1) := by
        conv_lhs => rw [show bitLength f (n / 2) = (bitLength f (n / 2) - 1) + 1 by omega]
        rw [pow_succ]
        ring
      constructor
      · rw [hp]
        omega
      · rw [pow_succ]
        omega

/-- The floor of the binary logarithm: `2 ^ log2 n ≤ n < 2 ^ (log2 n + 1)`. -/
theorem log2_bounds (n : Nat) (hn : n ≠ 0) : 2 ^ log2 n ≤ n ∧ n < 2 ^ (log2 n + 1) := by
  obtain ⟨h1, h2⟩ := bitLength_bounds n n (Nat.le_refl n) hn
  have hb : bitLength n n ≠ 0 := by
    intro h0
    rw [h0] at h2
    simp at h2
    exact hn h2
  unfold log2
  refine ⟨h1, ?_⟩
  rw [Nat.sub_add_cancel (by omega)]
  exact h2

/-- A positive integer below `2 ^ 53` is a `float64`. -/
theorem roundPos_nat (a : Nat) (h0 : 0 < a) (h : a < 2 ^ 53) : roundPos a 1 = a := by
  obtain ⟨hle, _⟩ := log2_bounds a (by omega)
  have hl : log2 a < 53 := by
    have : 2 ^ log2 a < 2 ^ 53 := lt_of_le_of_lt hle h
    exact (Nat.pow_lt_pow_iff_right (by decide)).mp this
  have hk : log2Floor a 1 = (log2 a : Int) := by
    have h1 : log2 1 = 0 := by decide
    simp only [log2Floor, h1, Nat.cast_zero, sub_zero]
    have : geTwoPow a 1 (log2 a : Int) = true := by
      simp [geTwoPow, hle]
    simp [this]
  have he : max (log2Floor a 1 - 52) (-1074) = (log2 a : Int) - 52 := by
    rw [hk]
    omega
  have hup : ((log2 a : Int) - 52).toNat = 0 := by omega
  unfold roundPos
  simp only [he, hup, pow_zero, mul_one, roundHalfEven_one]
  have hpos : (2 : Nat) ^ (-((log2 a : Int) - 52)).toNat ≠ 0 := by positivity
  have := Rat.mkRat_mul_right (n := (a : Int)) (d := 1) hpos
  simp only [one_mul] at this
  simp only [Nat.cast_mul, Nat.cast_one, mul_one]
  rw [this]
  simp [Rat.mkRat_one]

/-- An integer of magnitude below `2 ^ 53` converts to `float64` exactly. -/
theorem round_intCast (n : Int) (h : n.natAbs < 2 ^ 53) : round (n : Rat) = n := by
  unfold round
  by_cases h0 : (n : Rat) = 0
  · simp [h0]
  · have hn : n ≠ 0 := by
      intro e
      exact h0 (by simp [e])
    simp only [h0, if_false, Rat.num_intCast, Rat.den_intCast]
    have hpos : 0 < n.natAbs := Int.natAbs_pos.mpr hn
    rw [roundPos_nat _ hpos h]
    by_cases hp : (0 : Rat) < n
    · simp only [hp, if_true]
      have : 0 < n := by exact_mod_cast hp
      rw [Nat.cast_natAbs, abs_of_pos this]
    · simp only [hp, if_false]
      have : n < 0 := by
        have : ¬ (0 : Int) < n := by exact_mod_cast hp
        omega
      rw [Nat.cast_natAbs, abs_of_neg this]
      simp

/-- The conversion of an integer value to `int64` gives it back. -/
theorem trunc_intCast (n : Int) : trunc (n : Rat) = n := by
  unfold trunc
  by_cases h : (0 : Rat) ≤ n
  · simp only [h, if_true]
    exact Int.floor_intCast n
  · simp only [h, if_false]
    have : -(n : Rat) = ((-n : Int) : Rat) := by simp
    rw [this, Int.floor_intCast]
    simp

theorem round_zero : round 0 = 0 := by
  simp [round]

end GoFloat

namespace Identity

/-- A number that is a whole second within the range handled exactly is read
as the date of that second. -/
theorem numericDate_intCast (lib : JwtLib) (e : Int) (h : e.natAbs ≤ 2 ^ 62) :
    numericDate lib (e : Rat) = e := by
  unfold numericDate
  simp only [GoFloat.trunc_intCast, sub_self, zero_mul, GoFloat.round_zero]
  have h0 : GoFloat.trunc 0 = 0 := by
    have := GoFloat.trunc_intCast 0
    simpa using this
  have hr : -(2 ^ 62) ≤ e ∧ e ≤ 2 ^ 62 := by omega
  simp only [h0, hr, and_self, if_true, add_zero]
  exact Int.mul_ediv_cancel e (by decide)

/-- A duration of a whole number of seconds has exactly that many seconds. -/
theorem Seconds_whole (k : Int) (h : k.natAbs < 2 ^ 53) :
    GoFloat.trunc (Seconds (k * Second)) = k := by
  have hS : Second ≠ 0 := by decide
  have h1 : Int.tdiv (k * Second) Second = k := Int.mul_tdiv_cancel k hS
  have h2 : Int.tmod (k * Second) Second = 0 := Int.mul_tmod_left k Second
  unfold Seconds
  simp only [h1, h2, Int.cast_zero, GoFloat.round_zero, zero_div, add_zero]
  rw [GoFloat.round_intCast k h, GoFloat.round_intCast k h, GoFloat.trunc_intCast]

/-- A duration of 16777216.999999999 seconds is reported as 16777217 seconds:
the `float64` sum rounds up to the next whole number. -/
theorem Seconds_rounds_up : GoFloat.trunc (Seconds 16777216999999999) = 16777217 := by
  decide!

end Identity

/-! ## Theorems: dummy-api -/

namespace Dummy

open GoStr Pgx

theorem storeCalls_append (a b : List Event) :
    storeCalls (a ++ b) = storeCalls a ++ storeCalls b := by
  induction a with
  | nil => rfl
  | cons e es ih => cases e <;> simp [storeCalls, ih]

/-- A successful `authorize` called the validator once, on the extracted
credential, which was not empty, and returns what the validator returned. -/
theorem authorize_ok {σ : Type} (env : Env σ) (raw : String) (claims : Claims)
    (tr : List Event) (h : authorize env raw = (.ok claims, tr)) :
    extractToken raw ≠ "" ∧ env.validator (extractToken raw) = .ok claims ∧
      tr = [.validate (extractToken raw)] := by
  unfold authorize at h
  by_cases h0 : extractToken raw = ""
  · simp [h0] at h
  · simp only [h0, if_false] at h
    cases hv : env.validator (extractToken raw) with
    | error err => simp [hv] at h
    | ok c =>
      simp only [hv, Prod.mk.injEq, Except.ok.injEq] at h
      exact ⟨h0, by rw [h.1], h.2.symm⟩

/-- A failed `authorize` returns an unauthorized error and made no store call. -/
theorem authorize_error {σ : Type} (env : Env σ) (raw : String) (e : ServiceError)
    (tr : List Event) (h : authorize env raw = (.error e, tr)) :
    AuthFails env raw ∧ (∃ msg, e = .unauthorized msg) ∧ storeCalls tr = [] := by
  unfold authorize at h
  by_cases h0 : extractToken raw = ""
  · simp only [h0, if_true, Prod.mk.injEq, Except.error.injEq] at h
    exact ⟨Or.inl h0, ⟨_, h.1.symm⟩, by rw [← h.2]; rfl⟩
  · simp only [h0, if_false] at h
    cases hv : env.validator (extractToken raw) with
    | error err =>
      simp only [hv, Prod.mk.injEq, Except.error.injEq] at h
      exact ⟨Or.inr ⟨err, hv⟩, ⟨_, h.1.symm⟩, by rw [← h.2]; rfl⟩
    | ok c => simp [hv] at h

/-- When authorization fails, `authorize` returns an error. -/
theorem authorize_of_fails {σ : Type} (env : Env σ) (raw : String)
    (h : AuthFails env raw) : ∃ e tr, authorize env raw = (.error e, tr) := by
  unfold authorize
  by_cases h0 : extractToken raw = ""
  · exact ⟨.unauthorized "missing Authorization header", [], by simp only [h0, if_true]⟩
  · rcases h with h | ⟨err, hv⟩
    · exact absurd h h0
    · exact ⟨.unauthorized err, [.validate (extractToken raw)], by
        simp only [h0, if_false, hv]⟩

theorem toUUID_ok {σ : Type} (env : Env σ) (id : String) (u : PgUUID)
    (h : toUUID env id = .ok u) :
    ∃ parsed, env.uuidParse id = .ok parsed ∧ u = { Bytes := parsed, Valid := true } := by
  unfold toUUID at h
  cases hp : env.uuidParse id with
  | error err => simp [hp] at h
  | ok parsed =>
    simp only [hp, Except.ok.injEq] at h
    exact ⟨parsed, rfl, h.symm⟩

theorem CreateItem_owner {σ : Type} (env : Env σ) (st : σ) (p : CreateItemPayload) :
    OwnerIsSubject env p.Token (CreateItem env st p).trace := by
  intro call hc
  unfold CreateItem at hc
  rcases ha : authorize env p.Token with ⟨r, tr⟩
  rw [ha] at hc
  cases r with
  | error e =>
    have h := (authorize_error env _ e tr ha).2.2
    simp [h] at hc
  | ok claims =>
    obtain ⟨_, hv, htr⟩ := authorize_ok env _ claims tr ha
    subst htr
    simp only at hc
    cases hu : toUUID env claims.UserID with
    | error err => simp [hu, storeCalls] at hc
    | ok ownerID =>
      obtain ⟨parsed, hp, hown⟩ := toUUID_ok env _ _ hu
      simp only [hu] at hc
      refine ⟨claims, parsed, hv, hp, ?_⟩
      rcases hq : env.queries.CreateItem
        { OwnerID := ownerID, Name := p.Name, Description := p.Description } st with ⟨res, st1⟩
      rw [hq] at hc
      cases res <;> simp [storeCalls] at hc <;> simp [hc, StoreCall.owner, hown]

theorem ListItems_owner {σ : Type} (env : Env σ) (st : σ) (p : ListItemsPayload) :
    OwnerIsSubject env p.Token (ListItems env st p).trace := by
  intro call hc
  unfold ListItems at hc
  rcases ha : authorize env p.Token with ⟨r, tr⟩
  rw [ha] at hc
  cases r with
  | error e =>
    have h := (authorize_error env _ e tr ha).2.2
    simp [h] at hc
  | ok claims =>
    obtain ⟨_, hv, htr⟩ := authorize_ok env _ claims tr ha
    subst htr
    simp only at hc
    cases hu : toUUID env claims.UserID with
    | error err => simp [hu, storeCalls] at hc
    | ok ownerID =>
      obtain ⟨parsed, hp, hown⟩ := toUUID_ok env _ _ hu
      simp only [hu] at hc
      refine ⟨claims, parsed, hv, hp, ?_⟩
      rcases hq : env.queries.ListItems { OwnerID := ownerID, Limit := 50, Offset := 0 } st
        with ⟨res, st1⟩
      rw [hq] at hc
      cases res <;> simp [storeCalls] at hc <;> simp [hc, StoreCall.owner, hown]

theorem GetItem_owner {σ : Type} (env : Env σ) (st : σ) (p : ItemIDPayload) :
    OwnerIsSubject env p.Token (GetItem env st p).trace := by
  intro call hc
  unfold GetItem at hc
  rcases ha : authorize env p.Token with ⟨r, tr⟩
  rw [ha] at hc
  cases r with
  | error e =>
    have h := (authorize_error env _ e tr ha).2.2
    simp [h] at hc
  | ok claims =>
    obtain ⟨_, hv, htr⟩ := authorize_ok env _ claims tr ha
    subst htr
    simp only at hc
    cases hu : toUUID env claims.UserID with
    | error err => simp [hu, storeCalls] at hc
    | ok ownerID =>
      obtain ⟨parsed, hp, hown⟩ := toUUID_ok env _ _ hu
      simp only [hu] at hc
      refine ⟨claims, parsed, hv, hp, ?_⟩
      cases hi : toUUID env p.ID with
      | error err => simp [hi, storeCalls] at hc
      | ok itemID =>
        simp only [hi] at hc
        rcases hq : env.queries.GetItem { ID := itemID, OwnerID := ownerID } st with ⟨res, st1⟩
        rw [hq] at hc
        cases res with
        | error err =>
          by_cases hn : err.isNoRows = true <;> simp [hn, storeCalls] at hc <;>
            simp [hc, StoreCall.owner, hown]
        | ok item =>
          simp [storeCalls] at hc
          simp [hc, StoreCall.owner, hown]

theorem DeleteItem_owner {σ : Type} (env : Env σ) (st : σ) (p : ItemIDPayload) :
    OwnerIsSubject env p.Token (DeleteItem env st p).trace := by
  intro call hc
  unfold DeleteItem at hc
  rcases ha : authorize env p.Token with ⟨r, tr⟩
  rw [ha] at hc
  cases r with
  | error e =>
    have h := (authorize_error env _ e tr ha).2.2
    simp [h] at hc
  | ok claims =>
    obtain ⟨_, hv, htr⟩ := authorize_ok env _ claims tr ha
    subst htr
    simp only at hc
    cases hu : toUUID env claims.UserID with
    | error err => simp [hu, storeCalls] at hc
    | ok ownerID =>
      obtain ⟨parsed, hp, hown⟩ := toUUID_ok env _ _ hu
      simp only [hu] at hc
      refine ⟨claims, parsed, hv, hp, ?_⟩
      cases hi : toUUID env p.ID with
      | error err => simp [hi, storeCalls] at hc
      | ok itemID =>
        simp only [hi] at hc
        rcases hq : env.queries.DeleteItem { ID := itemID, OwnerID := ownerID } st
          with ⟨res, st1⟩
        rw [hq] at hc
        cases res <;> simp [storeCalls] at hc <;> simp [hc, StoreCall.owner, hown]

/-- C1: in each of CreateItem, ListItems, GetItem and DeleteItem, for every
request, every call made to the item store carries a valid owner id equal to
the UUID parsed from the subject of the claims that the validator returned for
the credential of that request. -/
theorem store_calls_scoped_to_token_owner {σ : Type} (env : Env σ) (st : σ)
    (pc : CreateItemPayload) (pl : ListItemsPayload) (pg pd : ItemIDPayload) :
    OwnerIsSubject env pc.Token (CreateItem env st pc).trace ∧
    OwnerIsSubject env pl.Token (ListItems env st pl).trace ∧
    OwnerIsSubject env pg.Token (GetItem env st pg).trace ∧
    OwnerIsSubject env pd.Token (DeleteItem env st pd).trace :=
  ⟨CreateItem_owner env st pc, ListItems_owner env st pl, GetItem_owner env st pg,
    DeleteItem_owner env st pd⟩

theorem CreateItem_auth_fails {σ : Type} (env : Env σ) (st : σ) (p : CreateItemPayload)
    (h : AuthFails env p.Token) :
    ∃ e, (authorize env p.Token).1 = .error e ∧ FailsUntouched (CreateItem env st p) e st := by
  obtain ⟨e, tr, ha⟩ := authorize_of_fails env _ h
  have hs := (authorize_error env _ e tr ha).2.2
  refine ⟨e, by rw [ha], ?_⟩
  unfold CreateItem FailsUntouched
  rw [ha]
  exact ⟨rfl, rfl, hs⟩

theorem ListItems_auth_fails {σ : Type} (env : Env σ) (st : σ) (p : ListItemsPayload)
    (h : AuthFails env p.Token) :
    ∃ e, (authorize env p.Token).1 = .error e ∧ FailsUntouched (ListItems env st p) e st := by
  obtain ⟨e, tr, ha⟩ := authorize_of_fails env _ h
  have hs := (authorize_error env _ e tr ha).2.2
  refine ⟨e, by rw [ha], ?_⟩
  unfold ListItems FailsUntouched
  rw [ha]
  exact ⟨rfl, rfl, hs⟩

theorem GetItem_auth_fails {σ : Type} (env : Env σ) (st : σ) (p : ItemIDPayload)
    (h : AuthFails env p.Token) :
    ∃ e, (authorize env p.Token).1 = .error e ∧ FailsUntouched (GetItem env st p) e st := by
  obtain ⟨e, tr, ha⟩ := authorize_of_fails env _ h
  have hs := (authorize_error env _ e tr ha).2.2
  refine ⟨e, by rw [ha], ?_⟩
  unfold GetItem FailsUntouched
  rw [ha]
  exact ⟨rfl, rfl, hs⟩

theorem DeleteItem_auth_fails {σ : Type} (env : Env σ) (st : σ) (p : ItemIDPayload)
    (h : AuthFails env p.Token) :
    ∃ e, (authorize env p.Token).1 = .error e ∧ FailsUntouched (DeleteItem env st p) e st := by
  obtain ⟨e, tr, ha⟩ := authorize_of_fails env _ h
  have hs := (authorize_error env _ e tr ha).2.2
  refine ⟨e, by rw [ha], ?_⟩
  unfold DeleteItem FailsUntouched
  rw [ha]
  exact ⟨rfl, rfl, hs⟩

/-- C2: in each of CreateItem, ListItems, GetItem and DeleteItem, for every
request whose authorization fails (the extracted credential is empty, or the
validator returns an error), the operation returns the error `authorize`
returned, makes no call to the item store, and leaves the store state as it
was. -/
theorem authorization_failure_short_circuits {σ : Type} (env : Env σ) (st : σ)
    (pc : CreateItemPayload) (pl : ListItemsPayload) (pg pd : ItemIDPayload) :
    (AuthFails env pc.Token → ∃ e, (authorize env pc.Token).1 = .error e ∧
      FailsUntouched (CreateItem env st pc) e st) ∧
    (AuthFails env pl.Token → ∃ e, (authorize env pl.Token).1 = .error e ∧
      FailsUntouched (ListItems env st pl) e st) ∧
    (AuthFails env pg.Token → ∃ e, (authorize env pg.Token).1 = .error e ∧
      FailsUntouched (GetItem env st pg) e st) ∧
    (AuthFails env pd.Token → ∃ e, (authorize env pd.Token).1 = .error e ∧
      FailsUntouched (DeleteItem env st pd) e st) :=
  ⟨CreateItem_auth_fails env st pc, ListItems_auth_fails env st pl,
    GetItem_auth_fails env st pg, DeleteItem_auth_fails env st pd⟩

/-- Evaluation of C1 on the examples: with the token of owner A each operation
makes exactly one store call, and it carries the identifier of A. -/
theorem store_calls_scoped_to_token_owner_witness :
    (storeCalls (CreateItem demoEnv []
        { Token := "Bearer token-a", Name := "n", Description := some "d" }).trace).map
      StoreCall.owner = [{ Bytes := lastByte 10, Valid := true }] ∧
    (storeCalls (GetItem demoEnv [rowA] { Token := "token-a", ID := id1 }).trace).map
      StoreCall.owner = [{ Bytes := lastByte 10, Valid := true }] ∧
    OwnerIsSubject demoEnv "Bearer token-a"
      (CreateItem demoEnv []
        { Token := "Bearer token-a", Name := "n", Description := some "d" }).trace :=
  ⟨by decide, by decide,
    (store_calls_scoped_to_token_owner demoEnv []
      { Token := "Bearer token-a", Name := "n", Description := some "d" }
      { Token := "" } { Token := "", ID := "" } { Token := "", ID := "" }).1⟩

/-- Evaluation of C2 on the examples: a rejected token and a missing credential
both fail before the store is reached. -/
theorem authorization_failure_short_circuits_witness :
    AuthFails demoEnv "Bearer forged" ∧ AuthFails demoEnv "   " ∧
    (∃ e, (authorize demoEnv "Bearer forged").1 = .error e ∧
      FailsUntouched (DeleteItem demoEnv [rowA] { Token := "Bearer forged", ID := id1 }) e
        [rowA]) ∧
    (∃ e, (authorize demoEnv "   ").1 = .error e ∧
      FailsUntouched (CreateItem demoEnv [rowA]
        { Token := "   ", Name := "n", Description := none }) e [rowA]) :=
  have h1 : AuthFails demoEnv "Bearer forged" := Or.inr ⟨"token is malformed", by decide⟩
  have h2 : AuthFails demoEnv "   " := Or.inl (by decide)
  ⟨h1, h2,
    (authorization_failure_short_circuits demoEnv [rowA]
      { Token := "", Name := "", Description := none } { Token := "" }
      { Token := "", ID := "" } { Token := "Bearer forged", ID := id1 }).2.2.2 h1,
    (authorization_failure_short_circuits demoEnv [rowA]
      { Token := "   ", Name := "n", Description := none } { Token := "" }
      { Token := "", ID := "" } { Token := "", ID := "" }).1 h2⟩

/-- C3: with the gRPC client as validator, for every header value and every
outcome of the remote validation call: `authorize` returns claims only if the
remote call succeeded with `valid = true`, and then they are the claims of the
response; if the remote call fails, or the response has `valid = false`,
`authorize` returns an unauthorized error (and so no claims); when the call was
made (the credential is not empty) the message is the transport error, or the
reason the response carries. -/
theorem authorize_follows_remote_validation {σ : Type} (env : Env σ)
    (identity : String → Except String ValidateTokenResponse) (raw : String) :
    (∀ claims, (authorize (withClient env identity) raw).1 = .ok claims →
      ∃ resp, identity (extractToken raw) = .ok resp ∧ resp.Valid = true ∧
        claims = { UserID := resp.UserId.getD "", Email := resp.Email.getD "" }) ∧
    (∀ err, identity (extractToken raw) = .error err →
      ∃ msg, (authorize (withClient env identity) raw).1 = .error (.unauthorized msg) ∧
        (extractToken raw ≠ "" → msg = err)) ∧
    (∀ resp, identity (extractToken raw) = .ok resp → resp.Valid = false →
      ∃ msg, (authorize (withClient env identity) raw).1 = .error (.unauthorized msg) ∧
        (extractToken raw ≠ "" → ∀ reason, resp.Reason = some reason → msg = reason)) := by
  by_cases h0 : extractToken raw = ""
  · have ha : (authorize (withClient env identity) raw).1 =
        .error (.unauthorized "missing Authorization header") := by
      simp [authorize, h0]
    refine ⟨?_, ?_, ?_⟩
    · intro claims hc
      rw [ha] at hc
      cases hc
    · intro err _
      exact ⟨_, ha, fun h => absurd h0 h⟩
    · intro resp _ _
      exact ⟨_, ha, fun h => absurd h0 h⟩
  · have ha : (authorize (withClient env identity) raw).1 =
        match Client.Validate identity (extractToken raw) with
        | .error err => .error (.unauthorized err)
        | .ok claims => .ok claims := by
      simp only [authorize, withClient, h0, if_false]
      cases Client.Validate identity (extractToken raw) <;> rfl
    rw [ha]
    unfold Client.Validate
    refine ⟨?_, ?_, ?_⟩
    · intro claims hc
      cases hi : identity (extractToken raw) with
      | error err => simp [hi] at hc
      | ok resp =>
        cases hvalid : resp.Valid with
        | false =>
          cases hr : resp.Reason <;> simp [hi, hvalid, hr] at hc
        | true =>
          simp only [hi, hvalid, Bool.not_true, Bool.false_eq_true, if_false,
            Except.ok.injEq] at hc
          exact ⟨resp, rfl, hvalid, hc.symm⟩
    · intro err hi
      exact ⟨err, by simp [hi], fun _ => rfl⟩
    · intro resp hi hvalid
      cases hr : resp.Reason with
      | none =>
        exact ⟨"token validation failed", by simp [hi, hvalid, hr], fun _ reason h => by cases h⟩
      | some reason =>
        refine ⟨reason, by simp [hi, hvalid, hr], fun _ r h => ?_⟩
        cases h
        rfl

/-- Evaluation of C3 on the examples: an expired token is reported with the
reason of the response, an unreachable service with the transport error. -/
theorem authorize_follows_remote_validation_witness :
    (authorize (withClient demoEnv demoIdentity) "Bearer old").1 =
      .error (.unauthorized "token is expired") ∧
    (authorize (withClient demoEnv demoIdentity) "Bearer token-a").1 =
      .ok { UserID := idA, Email := "a@x.com" } ∧
    (∃ msg, (authorize (withClient demoEnv demoIdentity) "Bearer down").1 =
        .error (.unauthorized msg) ∧
      (extractToken "Bearer down" ≠ "" → msg = "rpc error: code = Unavailable")) :=
  ⟨by decide, by decide,
    (authorize_follows_remote_validation demoEnv demoIdentity "Bearer down").2.1
      "rpc error: code = Unavailable" (by decide)⟩

/-- With a valid token, a subject that parses and an item id that parses,
`GetItem` returns what the store lookup scoped by `(id, owner)` gives: the
mapped row, not found when the store reports no row, a wrapped error
otherwise. -/
theorem GetItem_authorized {σ : Type} (env : Env σ) (st : σ) (p : ItemIDPayload)
    (claims : Claims) (ownerID itemID : PgUUID)
    (hauth : (authorize env p.Token).1 = .ok claims)
    (hsub : toUUID env claims.UserID = .ok ownerID)
    (hid : toUUID env p.ID = .ok itemID) :
    (GetItem env st p).result =
      match (env.queries.GetItem { ID := itemID, OwnerID := ownerID } st).1 with
      | .ok item => .ok (mapItem env item)
      | .error err =>
        if err.isNoRows then .error (.notFound "item not found")
        else .error (.wrapped "get item" err) := by
  unfold GetItem
  rcases ha : authorize env p.Token with ⟨r, tr⟩
  rw [ha] at hauth
  simp only at hauth
  subst hauth
  simp only [hsub, hid]
  rcases hq : env.queries.GetItem { ID := itemID, OwnerID := ownerID } st with ⟨res, st1⟩
  cases res with
  | error err => by_cases hn : err.isNoRows = true <;> simp [hn]
  | ok item => simp

/-- With a valid token, a subject that parses and an item id that parses,
`DeleteItem` returns success when the store reports no error and a wrapped
error otherwise: whatever the store does, the result is never a not found
error. -/
theorem DeleteItem_authorized {σ : Type} (env : Env σ) (st : σ) (p : ItemIDPayload)
    (claims : Claims) (ownerID itemID : PgUUID)
    (hauth : (authorize env p.Token).1 = .ok claims)
    (hsub : toUUID env claims.UserID = .ok ownerID)
    (hid : toUUID env p.ID = .ok itemID) :
    (DeleteItem env st p).result =
      match (env.queries.DeleteItem { ID := itemID, OwnerID := ownerID } st).1 with
      | none => .ok ()
      | some err => .error (.wrapped "delete item" err) := by
  unfold DeleteItem
  rcases ha : authorize env p.Token with ⟨r, tr⟩
  rw [ha] at hauth
  simp only at hauth
  subst hauth
  simp only [hsub, hid]
  rcases hq : env.queries.DeleteItem { ID := itemID, OwnerID := ownerID } st with ⟨res, st1⟩
  cases res <;> simp

/-- The lookup of `memQueries` finds no row when no row has both the id and the
owner asked for. -/
theorem memQueries_GetItem_none (newID : List DbItem → UUID) (stamp : Int)
    (rows : List DbItem) (arg : GetItemParams)
    (h : ∀ r ∈ rows, ¬ (r.ID = arg.ID ∧ r.OwnerID = arg.OwnerID)) :
    ((memQueries newID stamp).GetItem arg rows).1 = .error ErrNoRows := by
  have hf : rows.find? (fun r => decide (r.ID = arg.ID ∧ r.OwnerID = arg.OwnerID)) = none := by
    rw [List.find?_eq_none]
    intro r hr
    simpa using h r hr
  simp only [memQueries, hf]

/-- C7: over the store modelled from the spec, for every store state in which
item ids are unique, every item of owner A in it and every valid token of a
different owner B, `GetItem` with the token of B and the id of that item
returns the not found error, the same error as for a well-formed id that
matches no item at all. -/
theorem GetItem_hides_items_of_other_owners {σ : Type} (env : Env σ)
    (newID : List DbItem → UUID) (stamp : Int) (rows : List DbItem) (item : DbItem)
    (tokenB : String) (claimsB : Claims) (ownerA ownerB : PgUUID) (pid pidFree : String)
    (idFree : PgUUID)
    (huniq : UniqueIDs rows) (hmem : item ∈ rows) (hownA : item.OwnerID = ownerA)
    (hauth : (authorize env tokenB).1 = .ok claimsB)
    (hsub : toUUID env claimsB.UserID = .ok ownerB) (hne : ownerA ≠ ownerB)
    (hid : toUUID env pid = .ok item.ID)
    (hidFree : toUUID env pidFree = .ok idFree) (hfree : ∀ r ∈ rows, r.ID ≠ idFree) :
    (GetItem (withMemStore env newID stamp) rows { Token := tokenB, ID := pid }).result =
      .error (.notFound "item not found") ∧
    (GetItem (withMemStore env newID stamp) rows { Token := tokenB, ID := pidFree }).result =
      .error (.notFound "item not found") := by
  have hauth1 : (authorize (withMemStore env newID stamp) tokenB).1 = .ok claimsB := hauth
  have hsub1 : toUUID (withMemStore env newID stamp) claimsB.UserID = .ok ownerB := hsub
  have hid1 : toUUID (withMemStore env newID stamp) pid = .ok item.ID := hid
  have hidFree1 : toUUID (withMemStore env newID stamp) pidFree = .ok idFree := hidFree
  constructor
  · rw [GetItem_authorized (withMemStore env newID stamp) rows { Token := tokenB, ID := pid }
      claimsB ownerB item.ID hauth1 hsub1 hid1]
    have h := memQueries_GetItem_none newID stamp rows { ID := item.ID, OwnerID := ownerB }
      (by
        rintro r hr ⟨h1, h2⟩
        have hri : r = item := huniq r hr item hmem h1
        subst hri
        exact hne (hownA.symm.trans h2))
    simp only [withMemStore, h, ErrNoRows, if_true]
  · rw [GetItem_authorized (withMemStore env newID stamp) rows
      { Token := tokenB, ID := pidFree } claimsB ownerB idFree hauth1 hsub1 hidFree1]
    have h := memQueries_GetItem_none newID stamp rows { ID := idFree, OwnerID := ownerB }
      (by
        rintro r hr ⟨h1, _⟩
        exact hfree r hr h1)
    simp only [withMemStore, h, ErrNoRows, if_true]

/-- Evaluation of C7 on the examples: item 1 belongs to A; B gets the same not
found error for it as for the id 2 that matches no row, while A gets the
item. -/
theorem GetItem_hides_items_of_other_owners_witness :
    ((GetItem (withMemStore demoEnv demoNewID 0) [rowA]
        { Token := "Bearer token-b", ID := id1 }).result =
      .error (.notFound "item not found") ∧
    (GetItem (withMemStore demoEnv demoNewID 0) [rowA]
        { Token := "Bearer token-b", ID := id2 }).result =
      .error (.notFound "item not found")) ∧
    (GetItem (withMemStore demoEnv demoNewID 0) [rowA]
        { Token := "Bearer token-a", ID := id1 }).result =
      .ok { ID := id1, Name := "n", Description := some "d", OwnerID := idA,
            CreatedAt := "1970-01-01T00:00:00Z" } :=
  ⟨GetItem_hides_items_of_other_owners demoEnv demoNewID 0 [rowA] rowA "Bearer token-b"
      { UserID := idB, Email := "b@x.com" } { Bytes := lastByte 10, Valid := true }
      { Bytes := lastByte 11, Valid := true } id1 id2 { Bytes := lastByte 2, Valid := true }
      (by
        intro r1 h1 r2 h2 _
        rw [List.mem_singleton] at h1 h2
        rw [h1, h2])
      (List.mem_singleton.mpr rfl) rfl (by decide) (by decide) (by decide) (by decide)
      (by decide)
      (by
        intro r hr
        rw [List.mem_singleton] at hr
        rw [hr]
        decide),
    by decide⟩

/-- C8, the code at the failing inputs, over the store modelled from the spec:
`DeleteItem` with a valid token and a well-formed id reports success, not a not
found error, when the id never existed (id 2), when the item belongs to another
owner (item 1 of A, token of B; nothing is deleted), and when the owner deletes
the same id a second time. -/
theorem DeleteItem_of_missing_item_reports_success :
    (DeleteItem demoEnv [rowA] { Token := "Bearer token-b", ID := id2 }).result = .ok () ∧
    (DeleteItem demoEnv [rowA] { Token := "Bearer token-b", ID := id1 }).result = .ok () ∧
    (DeleteItem demoEnv [rowA] { Token := "Bearer token-b", ID := id1 }).state = [rowA] ∧
    (DeleteItem demoEnv [rowA] { Token := "Bearer token-a", ID := id1 }).result = .ok () ∧
    (DeleteItem demoEnv [rowA] { Token := "Bearer token-a", ID := id1 }).state = [] ∧
    (DeleteItem demoEnv [] { Token := "Bearer token-a", ID := id1 }).result = .ok () ∧
    (DeleteItem demoEnvStrict [rowA] { Token := "Bearer token-b", ID := id2 }).result =
      .error (.wrapped "delete item" ErrNoRows) := by
  decide

/-- A delete of `memQueries` keeps item ids unique. -/
theorem memQueries_DeleteItem_unique (newID : List DbItem → UUID) (stamp : Int)
    (rows : List DbItem) (arg : DeleteItemParams) (h : UniqueIDs rows) :
    UniqueIDs ((memQueries newID stamp).DeleteItem arg rows).2 := by
  intro r1 h1 r2 h2 hid
  simp only [memQueries] at h1 h2
  exact h r1 (List.mem_of_mem_filter h1) r2 (List.mem_of_mem_filter h2) hid

/-- A create of `memQueries` keeps item ids unique when the identifier assigned
to the new row is fresh. -/
theorem memQueries_CreateItem_unique (newID : List DbItem → UUID) (stamp : Int)
    (rows : List DbItem) (arg : CreateItemParams) (h : UniqueIDs rows)
    (hfresh : ∀ r ∈ rows, r.ID ≠ { Bytes := newID rows, Valid := true }) :
    UniqueIDs ((memQueries newID stamp).CreateItem arg rows).2 := by
  intro r1 h1 r2 h2 hid
  simp only [memQueries, List.mem_append, List.mem_singleton] at h1 h2
  rcases h1 with h1 | h1 <;> rcases h2 with h2 | h2
  · exact h r1 h1 r2 h2 hid
  · subst h2
    exact absurd hid (hfresh r1 h1)
  · subst h1
    exact absurd hid.symm (hfresh r2 h2)
  · rw [h1, h2]

end Dummy

/-! ## Theorems: identity-api -/

namespace Identity

open Pgx

/-- The methods of type `*jwt.SigningMethodHMAC` are those named `HS256`,
`HS384` and `HS512`. -/
theorem GetSigningMethod_HMAC (alg : String) :
    GetSigningMethod alg = some .HMAC ↔ alg = "HS256" ∨ alg = "HS384" ∨ alg = "HS512" := by
  unfold GetSigningMethod
  constructor
  · intro h
    by_contra hn
    simp only [hn, if_false] at h
    split_ifs at h <;> simp at h
  · intro h
    simp only [h, if_true]

/-- The token `Issue` returns for a user with a valid, non-empty id. -/
theorem Issue_ok (lib : JwtLib) (uuidString : UUID → String) (m : TokenManager) (user : User)
    (nowIat nowExp : Int) (hvalid : user.ID.Valid = true)
    (hid : uuidString user.ID.Bytes ≠ "") :
    Issue lib uuidString m user nowIat nowExp =
      .ok (SignedString lib "HS256"
        [("sub", .str (uuidString user.ID.Bytes)), ("iat", .num ((nowIat / Second : Int) : Rat)),
         ("exp", .num (((nowExp + m.ttl) / Second : Int) : Rat)), ("email", .str user.Email)]
        m.secret, m.ttl) := by
  simp only [Issue, hvalid, if_true, hid, if_false]

/-- A token whose header names a method of the HMAC family is accepted when its
signature is the HMAC of that method under the secret, its claims pass the
validator and its subject is a non-empty string. -/
theorem Validate_hmac (lib : JwtLib) (m : TokenManager) (now : Int) (t : Token) (alg : String)
    (halg : t.alg = some alg) (hfam : GetSigningMethod alg = some .HMAC)
    (hsig : t.signature = lib.hmac alg m.secret t.signingInput)
    (hclaims : validateClaims lib now t.claims = [])
    (hsub : claimString t.claims "sub" ≠ "") :
    Validate lib m now (.wellFormed t) =
      .ok { UserID := claimString t.claims "sub", Email := claimString t.claims "email" } := by
  simp [Validate, Parse, halg, hfam, keyFunc, Verify, hsig, hclaims, hsub]

/-- The claims of an issued token pass the validator at every instant before the
expiry, when the expiry second is an integer that `float64` holds exactly. -/
theorem validateClaims_issued (lib : JwtLib) (now iat exp : Int) (sub email : String)
    (hrange : exp.natAbs < 2 ^ 53) (hbefore : now < exp * Second) :
    validateClaims lib now
      (decodeClaims [("sub", .str sub), ("iat", .num (iat : Rat)), ("exp", .num (exp : Rat)),
        ("email", .str email)]) = [] := by
  have hr := GoFloat.round_intCast exp hrange
  have hd := numericDate_intCast lib exp (by omega)
  by_cases hz : (exp : Rat) = 0 <;>
    simp [validateClaims, verifyExpiresAt, verifyNotBefore, parseNumericDate, decodeClaims,
      List.lookup, hr, hd, hz, hbefore, GoFloat.round_zero]

/-- C4: for every token manager and every user with a non-empty id (a valid id
whose text is not empty), `Issue` succeeds, and the token it returns, validated
by the same manager at any instant before its expiry, is accepted: `Validate`
returns the text of the id of the user as subject and the email of the user,
and `ValidateToken` returns `valid = true` with that `userID` and `email`. It
is the token `Login` returns when the store finds the user and the password
matches. The expiry second is an integer that `float64` holds exactly
(magnitude below `2 ^ 53`), as it is for every reading of the clock. -/
theorem issued_token_validates (s : Service) (user : User) (nowIat nowExp now : Int)
    (hvalid : user.ID.Valid = true)
    (hid : s.uuidString user.ID.Bytes ≠ "")
    (hrange : ((nowExp + s.tokens.ttl) / Second).natAbs < 2 ^ 53)
    (hbefore : now < (nowExp + s.tokens.ttl) / Second * Second) :
    ∃ token, Issue s.lib s.uuidString s.tokens user nowIat nowExp = .ok (token, s.tokens.ttl) ∧
      Validate s.lib s.tokens now token =
        .ok { UserID := s.uuidString user.ID.Bytes, Email := user.Email } ∧
      (ValidateToken s now { Token := token }).1 =
        .ok { Valid := true, UserID := some (s.uuidString user.ID.Bytes),
              Email := some user.Email, Reason := none } ∧
      ∀ payload : Credentials, s.GetUserByEmail payload.Email = .ok user →
        s.CompareHashAndPassword user.PasswordHash payload.Password = true →
        ∃ result, (Login s nowIat nowExp payload).1 = .ok result ∧
          result.AccessToken = token := by
  have hissue := Issue_ok s.lib s.uuidString s.tokens user nowIat nowExp hvalid hid
  refine ⟨_, hissue, ?_⟩
  have hclaims := validateClaims_issued s.lib now (nowIat / Second)
    ((nowExp + s.tokens.ttl) / Second) (s.uuidString user.ID.Bytes) user.Email hrange hbefore
  have hv : Validate s.lib s.tokens now
      (SignedString s.lib "HS256"
        [("sub", .str (s.uuidString user.ID.Bytes)),
         ("iat", .num ((nowIat / Second : Int) : Rat)),
         ("exp", .num (((nowExp + s.tokens.ttl) / Second : Int) : Rat)),
         ("email", .str user.Email)]
        s.tokens.secret) =
      .ok { UserID := s.uuidString user.ID.Bytes, Email := user.Email } := by
    have h := Validate_hmac s.lib s.tokens now
      { signingInput := s.lib.encode "HS256"
          [("sub", .str (s.uuidString user.ID.Bytes)),
           ("iat", .num ((nowIat / Second : Int) : Rat)),
           ("exp", .num (((nowExp + s.tokens.ttl) / Second : Int) : Rat)),
           ("email", .str user.Email)]
        alg := some "HS256"
        claims := decodeClaims
          [("sub", .str (s.uuidString user.ID.Bytes)),
           ("iat", .num ((nowIat / Second : Int) : Rat)),
           ("exp", .num (((nowExp + s.tokens.ttl) / Second : Int) : Rat)),
           ("email", .str user.Email)]
        signature := s.lib.hmac "HS256" s.tokens.secret
          (s.lib.encode "HS256"
            [("sub", .str (s.uuidString user.ID.Bytes)),
             ("iat", .num ((nowIat / Second : Int) : Rat)),
             ("exp", .num (((nowExp + s.tokens.ttl) / Second : Int) : Rat)),
             ("email", .str user.Email)]) }
      "HS256" rfl (by decide) rfl hclaims
      (by simpa [decodeClaims, claimString, List.lookup] using hid)
    simpa [SignedString, decodeClaims, claimString, List.lookup] using h
  refine ⟨hv, ?_, ?_⟩
  · simp only [ValidateToken, hv]
  · intro payload hfound hmatch
    simp only [Login, hfound, hmatch, if_true, hissue]
    exact ⟨_, rfl, rfl⟩

/-- Evaluation of C4 on the examples: the token issued at login for the user A
carries the text of the id of A as subject and is accepted one nanosecond
before the instant of its expiry, second 3600. -/
theorem issued_token_validates_witness :
    demoService.uuidString demoUser.ID.Bytes = Dummy.idA ∧
    ∃ token, Issue demoService.lib demoService.uuidString demoService.tokens demoUser 5 7 =
        .ok (token, demoService.tokens.ttl) ∧
      Validate demoService.lib demoService.tokens 3599999999999 token =
        .ok { UserID := demoService.uuidString demoUser.ID.Bytes, Email := demoUser.Email } ∧
      (ValidateToken demoService 3599999999999 { Token := token }).1 =
        .ok { Valid := true, UserID := some (demoService.uuidString demoUser.ID.Bytes),
              Email := some demoUser.Email, Reason := none } ∧
      ∀ payload : Credentials, demoService.GetUserByEmail payload.Email = .ok demoUser →
        demoService.CompareHashAndPassword demoUser.PasswordHash payload.Password = true →
        ∃ result, (Login demoService 5 7 payload).1 = .ok result ∧
          result.AccessToken = token :=
  ⟨by decide,
    issued_token_validates demoService demoUser 5 7 3599999999999 (by decide) (by decide)
      (by decide) (by decide)⟩

/-- A token whose claims the validator rejects does not parse, whatever its
header and signature. -/
theorem Parse_invalid_claims (lib : JwtLib) (now : Int) (t : Token)
    (kf : Method → Option String → Except String String)
    (h : validateClaims lib now t.claims ≠ []) :
    ∃ err, Parse lib now (.wellFormed t) kf = .error err := by
  obtain ⟨f, fs, hc⟩ := List.exists_cons_of_ne_nil h
  unfold Parse
  simp only [hc]
  split
  · exact ⟨_, rfl⟩
  · split
    · exact ⟨_, rfl⟩
    · split
      · exact ⟨_, rfl⟩
      · split
        · exact ⟨_, rfl⟩
        · exact ⟨_, rfl⟩

/-- C5 as stated fails: a token whose `exp` claim is the number 0, correctly
signed, is validated long after second 0 (here at second 1700000000) and is
accepted, because the jwt library reads a zero `exp` as no expiry. -/
theorem zero_exp_token_accepted :
    (demoSignedAt "HS256" 0).claims.lookup "exp" = some (.num 0) ∧
    (0 : Int) ≤ 1700000000000000000 / Second ∧
    Validate demoService.lib demoService.tokens 1700000000000000000
        (.wellFormed (demoSignedAt "HS256" 0)) =
      .ok { UserID := Dummy.idA, Email := "a@x.com" } ∧
    (ValidateToken demoService 1700000000000000000
        { Token := .wellFormed (demoSignedAt "HS256" 0) }).1 =
      .ok { Valid := true, UserID := some Dummy.idA, Email := some "a@x.com",
            Reason := none } := by
  decide!

/-- C5 amended: for every token whose `exp` claim is a whole number of epoch
seconds other than zero (of magnitude at most `2 ^ 62`, the seconds that the
date arithmetic handles exactly), validated at an instant `now` whose epoch
second is at or after `exp`, whatever its header and signature: `Validate`
fails and `ValidateToken` returns `valid = false` with a reason and no user.
The comparison has no leeway: the token is rejected in the very second of its
expiry. -/
theorem expired_token_rejected (s : Service) (now : Int) (t : Token) (exp : Int)
    (hexp : t.claims.lookup "exp" = some (.num (exp : Rat)))
    (hnz : exp ≠ 0) (hrange : exp.natAbs ≤ 2 ^ 62)
    (hnow : exp ≤ now / Second) :
    (∃ err, Validate s.lib s.tokens now (.wellFormed t) = .error err) ∧
    ∃ reason, (ValidateToken s now { Token := .wellFormed t }).1 =
      .ok { Valid := false, UserID := none, Email := none, Reason := some reason } := by
  have hge : ¬ now < exp * Second := by
    have h1 : exp * Second ≤ now / Second * Second :=
      Int.mul_le_mul_of_nonneg_right hnow (by decide)
    have h2 : now / Second * Second ≤ now := Int.ediv_mul_le now (by decide)
    omega
  have hz : ¬ (exp : Rat) = 0 := by
    intro h
    exact hnz (by exact_mod_cast h)
  have hexpired : verifyExpiresAt s.lib now t.claims = some .expired := by
    simp only [verifyExpiresAt, parseNumericDate, hexp, hz, if_false,
      numericDate_intCast s.lib exp hrange, hge]
  have hclaims : validateClaims s.lib now t.claims ≠ [] := by
    simp [validateClaims, hexpired]
  have hv : ∃ err, Validate s.lib s.tokens now (.wellFormed t) = .error err := by
    obtain ⟨err, hp⟩ := Parse_invalid_claims s.lib now t (keyFunc s.tokens) hclaims
    exact ⟨s.lib.errorText err, by simp only [Validate, hp]⟩
  refine ⟨hv, ?_⟩
  obtain ⟨err, he⟩ := hv
  exact ⟨err, by simp only [ValidateToken, he]⟩

/-- Evaluation of the amended C5 on the examples: a correctly signed token
expiring at second 100 is accepted one nanosecond before that second and
rejected at its first nanosecond. -/
theorem expired_token_rejected_witness :
    Validate demoService.lib demoService.tokens 99999999999 (.wellFormed (demoSigned "HS256")) =
      .ok { UserID := Dummy.idA, Email := "a@x.com" } ∧
    ((∃ err, Validate demoService.lib demoService.tokens 100000000000
        (.wellFormed (demoSigned "HS256")) = .error err) ∧
     ∃ reason, (ValidateToken demoService 100000000000
        { Token := .wellFormed (demoSigned "HS256") }).1 =
      .ok { Valid := false, UserID := none, Email := none, Reason := some reason }) :=
  ⟨by decide!,
    expired_token_rejected demoService 100000000000 (demoSigned "HS256") 100 (by decide!)
      (by decide) (by decide) (by decide)⟩

/-- C6 as stated fails: a token whose header names `HS384`, a method other than
the `HS256` that `Issue` signs with, and whose signature is the HMAC of that
method under the secret, is accepted by `Validate`. -/
theorem hs384_token_accepted :
    (demoSigned "HS384").alg = some "HS384" ∧ "HS384" ≠ "HS256" ∧
    Validate demoService.lib demoService.tokens 5 (.wellFormed (demoSigned "HS384")) =
      .ok { UserID := Dummy.idA, Email := "a@x.com" } := by
  decide!

/-- C6 amended: for every token whose header names no signing method, or one
that is not of the HMAC family (any name other than `HS256`, `HS384` and
`HS512`), `Validate` returns an error and no claims, whatever the signature and
the claims. A token whose header names `HS256`, `HS384` or `HS512` is accepted
when its signature is the HMAC of that method under the secret of the manager,
its claims pass the time checks at the instant of validation and its subject is
a non-empty string. -/
theorem Validate_by_method_family (lib : JwtLib) (m : TokenManager) (now : Int) (t : Token) :
    ((∀ alg, t.alg = some alg → alg ≠ "HS256" ∧ alg ≠ "HS384" ∧ alg ≠ "HS512") →
      ∃ err, Validate lib m now (.wellFormed t) = .error err) ∧
    (∀ alg, t.alg = some alg → alg = "HS256" ∨ alg = "HS384" ∨ alg = "HS512" →
      t.signature = lib.hmac alg m.secret t.signingInput →
      validateClaims lib now t.claims = [] → claimString t.claims "sub" ≠ "" →
      Validate lib m now (.wellFormed t) =
        .ok { UserID := claimString t.claims "sub", Email := claimString t.claims "email" }) := by
  constructor
  · intro halg
    have hp : ∃ err, Parse lib now (.wellFormed t) (keyFunc m) = .error err := by
      unfold Parse
      simp only
      split
      · exact ⟨_, rfl⟩
      · next alg ha =>
        split
        · exact ⟨_, rfl⟩
        · next method hmeth =>
          have hne : method ≠ .HMAC := by
            intro hh
            rw [hh] at hmeth
            have h3 := (GetSigningMethod_HMAC alg).mp hmeth
            have h4 := halg alg ha
            rcases h3 with h | h | h
            · exact h4.1 h
            · exact h4.2.1 h
            · exact h4.2.2 h
          cases method <;> first | exact absurd rfl hne | exact ⟨_, rfl⟩
    obtain ⟨err, he⟩ := hp
    exact ⟨lib.errorText err, by simp only [Validate, he]⟩
  · intro alg halg hfam hsig hclaims hsub
    exact Validate_hmac lib m now t alg halg ((GetSigningMethod_HMAC alg).mpr hfam) hsig
      hclaims hsub

/-- Evaluation of the amended C6 on the examples: the claims of the examples
under the header `none` or `RS256` are rejected, and under the header `HS512`
with the HMAC of that method they are accepted. -/
theorem Validate_by_method_family_witness :
    (∃ err, Validate demoLib demoService.tokens 5 (.wellFormed (demoSigned "none")) =
      .error err) ∧
    Validate demoLib demoService.tokens 5 (.wellFormed (demoSigned "RS256")) =
      .error "token is unverifiable: error while executing keyfunc: unexpected signing method: RS256" ∧
    Validate demoLib demoService.tokens 5 (.wellFormed (demoSigned "HS512")) =
      .ok { UserID := claimString (demoSigned "HS512").claims "sub",
            Email := claimString (demoSigned "HS512").claims "email" } ∧
    claimString (demoSigned "HS512").claims "sub" = Dummy.idA :=
  ⟨(Validate_by_method_family demoLib demoService.tokens 5 (demoSigned "none")).1 (by
      intro alg h
      have h1 : alg = "none" := by
        simp only [demoSigned, demoSignedAt, Option.some.injEq] at h
        exact h.symm
      subst h1
      decide),
    by decide!,
    (Validate_by_method_family demoLib demoService.tokens 5 (demoSigned "HS512")).2 "HS512"
      rfl (by decide) rfl (by decide!) (by decide),
    by decide⟩

/-- C9: for every token string, `ValidateToken` returns a result and never an
error. When `Validate` succeeds the result has `valid = true` with `userID` and
`email` set to the validated claims and no reason; otherwise it has
`valid = false`, the message of the validation error as reason, and no
`userID` or `email`. -/
theorem ValidateToken_returns_result (s : Service) (now : Int)
    (payload : ValidateTokenPayload) :
    (ValidateToken s now payload).1 =
      .ok (match Validate s.lib s.tokens now payload.Token with
        | .ok claims =>
          { Valid := true, UserID := some claims.UserID, Email := some claims.Email,
            Reason := none }
        | .error err =>
          { Valid := false, UserID := none, Email := none, Reason := some err }) := by
  unfold ValidateToken
  cases Validate s.lib s.tokens now payload.Token <;> rfl

/-- C10: for every pair of login attempts, one for which the store reports no
user record for the email and one for which the store finds the user and the
password does not match the stored hash, the value returned to the caller is
the same: the unauthorized error with the message `invalid credentials`, and
no token. -/
theorem login_failures_indistinguishable (s1 s2 : Service) (a1 a2 b1 b2 : Int)
    (p1 p2 : Credentials) (err : StoreError) (user : User)
    (habsent : s1.GetUserByEmail p1.Email = .error err) (hnorows : err.isNoRows = true)
    (hfound : s2.GetUserByEmail p2.Email = .ok user)
    (hmismatch : s2.CompareHashAndPassword user.PasswordHash p2.Password = false) :
    (Login s1 a1 a2 p1).1 = .error (.unauthorized "invalid credentials") ∧
    (Login s2 b1 b2 p2).1 = (Login s1 a1 a2 p1).1 := by
  have h1 : (Login s1 a1 a2 p1).1 = .error (.unauthorized "invalid credentials") := by
    simp only [Login, habsent, hnorows, if_true]
  have h2 : (Login s2 b1 b2 p2).1 = .error (.unauthorized "invalid credentials") := by
    simp only [Login, hfound, hmismatch, Bool.false_eq_true, if_false]
  exact ⟨h1, h2.trans h1.symm⟩

/-- Evaluation of C10 on the examples: an unknown email and a wrong password
for a known email get the same answer, while the log records differ. -/
theorem login_failures_indistinguishable_witness :
    ((Login demoService 0 0 { Email := "nobody@x.com", Password := "changeme123" }).1 =
        .error (.unauthorized "invalid credentials") ∧
      (Login demoService 0 0 { Email := "a@x.com", Password := "wrongpass1" }).1 =
        (Login demoService 0 0 { Email := "nobody@x.com", Password := "changeme123" }).1) ∧
    (Login demoService 0 0 { Email := "a@x.com", Password := "wrongpass1" }).2 ≠
      (Login demoService 0 0 { Email := "nobody@x.com", Password := "changeme123" }).2 :=
  ⟨login_failures_indistinguishable demoService demoService 0 0 0 0
      { Email := "nobody@x.com", Password := "changeme123" }
      { Email := "a@x.com", Password := "wrongpass1" } ErrNoRows demoUser
      (by decide) (by decide) (by decide) (by decide),
    by decide⟩

end Identity

/-! ## Theorems: credential extraction -/

namespace GoStr

theorem dropWhile_head_not (p : Char → Bool) (l : List Char) (c : Char)
    (h : (l.dropWhile p).head? = some c) : p c = false := by
  have h1 := List.head?_dropWhile_not p l
  rw [h] at h1
  exact h1

/-- The right trim of a list is a beginning of it. -/
theorem trimRight_isPrefix (l : List Char) : trimRight l <+: l := by
  unfold trimRight
  rw [← List.reverse_suffix, List.reverse_reverse]
  exact List.dropWhile_suffix isSpace

/-- The left trim of a list is an end of it. -/
theorem trimLeft_isSuffix (l : List Char) : trimLeft l <:+ l :=
  List.dropWhile_suffix isSpace

theorem trimLeft_head (l : List Char) (c : Char) (h : (trimLeft l).head? = some c) :
    isSpace c = false :=
  dropWhile_head_not isSpace l c h

theorem trimRight_getLast (l : List Char) (c : Char) (h : (trimRight l).getLast? = some c) :
    isSpace c = false := by
  unfold trimRight at h
  rw [List.getLast?_reverse] at h
  exact dropWhile_head_not isSpace _ c h

theorem trimRight_eq_nil (l : List Char) : trimRight l = [] ↔ ∀ c ∈ l, isSpace c = true := by
  unfold trimRight
  rw [List.reverse_eq_nil_iff, List.dropWhile_eq_nil_iff]
  simp

theorem trimLeft_eq_nil (l : List Char) : trimLeft l = [] ↔ ∀ c ∈ l, isSpace c = true := by
  unfold trimLeft
  rw [List.dropWhile_eq_nil_iff]

/-- A list that starts with a code point that is not white space is its own
left trim. -/
theorem trimLeft_of_head (c : Char) (l : List Char) (h : isSpace c = false) :
    trimLeft (c :: l) = c :: l := by
  unfold trimLeft
  exact List.dropWhile_cons_of_neg (by simp [h])

/-- A list that ends with a code point that is not white space is its own
right trim. -/
theorem trimRight_of_last (l : List Char) (c : Char) (h : isSpace c = false) :
    trimRight (l ++ [c]) = l ++ [c] := by
  unfold trimRight
  rw [List.reverse_append, List.reverse_singleton, List.singleton_append,
    List.dropWhile_cons_of_neg (by simp [h])]
  simp

/-- The head of a non-empty beginning of a list is the head of the list. -/
theorem head?_of_isPrefix (a l : List Char) (h : a <+: l) (hne : a ≠ []) :
    a.head? = l.head? := by
  obtain ⟨t, rfl⟩ := h
  cases a with
  | nil => exact absurd rfl hne
  | cons x xs => rfl

/-- The data of a trimmed string: empty, or starting and ending with code points
that are not white space. -/
theorem TrimSpace_ends (s : String) (c : Char) :
    ((TrimSpace s).data.head? = some c → isSpace c = false) ∧
    ((TrimSpace s).data.getLast? = some c → isSpace c = false) := by
  constructor
  · intro h
    have hne : trimRight (trimLeft s.data) ≠ [] := by
      intro h0
      simp only [TrimSpace, h0] at h
      cases h
    have h1 := head?_of_isPrefix _ _ (trimRight_isPrefix (trimLeft s.data)) hne
    simp only [TrimSpace] at h
    rw [h1] at h
    exact trimLeft_head s.data c h
  · intro h
    exact trimRight_getLast _ c h

/-- Trimming gives the empty string exactly for a blank value. -/
theorem TrimSpace_eq_empty_iff (s : String) : TrimSpace s = "" ↔ blank s = true := by
  unfold blank
  rw [List.all_eq_true]
  constructor
  · intro h
    have h1 : trimRight (trimLeft s.data) = [] := by
      have := congrArg String.data h
      simpa [TrimSpace] using this
    have h2 : trimLeft s.data = [] := by
      cases hl : trimLeft s.data with
      | nil => rfl
      | cons c cs =>
        have hc : isSpace c = false := trimLeft_head s.data c (by rw [hl]; rfl)
        have hall := (trimRight_eq_nil _).mp h1 c (by rw [hl]; exact List.mem_cons_self _ _)
        rw [hc] at hall
        cases hall
    exact (trimLeft_eq_nil _).mp h2
  · intro h
    have h2 : trimLeft s.data = [] := (trimLeft_eq_nil _).mpr h
    apply String.ext
    simp only [TrimSpace, h2]
    rfl

/-- What `cutSpace` returns: the text before the first space and the text after
it. -/
theorem cutSpace_some (l a b : List Char) (h : cutSpace l = some (a, b)) :
    l = a ++ ' ' :: b ∧ ' ' ∉ a := by
  induction l generalizing a b with
  | nil => simp [cutSpace] at h
  | cons c cs ih =>
    unfold cutSpace at h
    by_cases hc : c = ' '
    · simp only [hc, if_true, Option.some.injEq, Prod.mk.injEq] at h
      obtain ⟨h1, h2⟩ := h
      subst h1 h2
      simp [hc]
    · simp only [hc, if_false] at h
      cases hr : cutSpace cs with
      | none => simp [hr] at h
      | some ab =>
        obtain ⟨a1, b1⟩ := ab
        simp only [hr, Option.some.injEq, Prod.mk.injEq] at h
        obtain ⟨h1, h2⟩ := h
        subst h1 h2
        obtain ⟨e1, e2⟩ := ih a1 b1 hr
        refine ⟨by rw [e1]; rfl, ?_⟩
        intro hmem
        rcases List.mem_cons.mp hmem with h | h
        · exact hc h.symm
        · exact e2 h

/-- Without a space there is nothing to cut. -/
theorem cutSpace_none (l : List Char) (h : cutSpace l = none) : ' ' ∉ l := by
  induction l with
  | nil => simp
  | cons c cs ih =>
    unfold cutSpace at h
    by_cases hc : c = ' '
    · simp [hc] at h
    · simp only [hc, if_false] at h
      cases hr : cutSpace cs with
      | none =>
        intro hmem
        rcases List.mem_cons.mp hmem with h1 | h1
        · exact hc h1.symm
        · exact ih hr h1
      | some ab => simp [hr] at h

/-- The cut is at the first space. -/
theorem cutSpace_append (a b : List Char) (h : ' ' ∉ a) :
    cutSpace (a ++ ' ' :: b) = some (a, b) := by
  induction a with
  | nil => simp [cutSpace]
  | cons c cs ih =>
    have hc : c ≠ ' ' := fun e => h (by rw [e]; exact List.mem_cons_self _ _)
    have hcs : ' ' ∉ cs := fun e => h (List.mem_cons_of_mem _ e)
    simp only [List.cons_append, cutSpace, hc, if_false, List.append_eq, ih hcs]

/-- The white space code points are at most U+0020 or at least U+0085. -/
theorem isSpace_toNat (c : Char) (h : isSpace c = true) : c.toNat ≤ 32 ∨ 0x85 ≤ c.toNat := by
  simp only [isSpace, Bool.or_eq_true, decide_eq_true_eq, Bool.and_eq_true] at h
  rcases h with ((((((((((((((h | h) | h) | h) | h) | h) | h) | h) | h) | h) | h) | h) | h) | h) | h)
  all_goals first | (subst h; decide) | omega

/-- A code point whose lower-casing is a letter of `bearer` is not white
space. -/
theorem not_isSpace_of_toLower (c : Char)
    (h : c.toLower ∈ ['b', 'e', 'a', 'r', 'e', 'r']) : isSpace c = false := by
  by_cases hup : c.toNat ≥ 65 ∧ c.toNat ≤ 90
  · by_contra hsp
    have h1 := isSpace_toNat c (by simpa using hsp)
    omega
  · have hl : c.toLower = c := by
      simp only [Char.toLower, hup, if_false]
    rw [hl] at h
    simp only [List.mem_cons, List.mem_singleton, List.mem_nil_iff, or_false] at h
    rcases h with h | h | h | h | h | h <;> (subst h; decide)

/-- A text equal to `Bearer` under case folding has six code points, none of
them white space. -/
theorem EqualFold_Bearer (s : String) (h : EqualFold s "Bearer" = true) :
    s.data.length = 6 ∧ ∀ c ∈ s.data, isSpace c = false := by
  unfold EqualFold at h
  have h1 : s.data.map Char.toLower = ['b', 'e', 'a', 'r', 'e', 'r'] := by
    have := eq_of_beq h
    rw [this]
    decide
  constructor
  · have := congrArg List.length h1
    simpa using this
  · intro c hc
    have hm : c.toLower ∈ s.data.map Char.toLower := List.mem_map_of_mem _ hc
    rw [h1] at hm
    exact not_isSpace_of_toLower c hm

end GoStr

namespace Dummy

open GoStr Pgx

/-- The function `extractToken` in terms of the cut of the trimmed value at its
first space. -/
theorem extractToken_cut (v : String) :
    extractToken v =
      if TrimSpace v = "" then ""
      else
        match cutSpace (TrimSpace v).data with
        | none => TrimSpace v
        | some (a, b) => if EqualFold ⟨a⟩ "Bearer" then TrimSpace ⟨b⟩ else TrimSpace v := by
  unfold extractToken SplitN2
  by_cases h0 : TrimSpace v = ""
  · simp only [h0, if_true]
  · simp only [h0, if_false]
    cases cutSpace (TrimSpace v).data with
    | none => rfl
    | some ab => rfl

/-- When the trimmed value is a scheme word equal to `Bearer` under case
folding, a space, and a rest, the credential is the trimmed rest. -/
theorem extractToken_of_form (v s : String) (rest : List Char)
    (hs : EqualFold s "Bearer" = true) (hw : (TrimSpace v).data = s.data ++ ' ' :: rest) :
    extractToken v = TrimSpace ⟨rest⟩ := by
  have hns : ' ' ∉ s.data := by
    intro hmem
    have := (EqualFold_Bearer s hs).2 ' ' hmem
    exact absurd this (by decide)
  have h0 : TrimSpace v ≠ "" := by
    intro h
    rw [h] at hw
    have := congrArg List.length hw
    simp at this
    omega
  rw [extractToken_cut, if_neg h0, hw, cutSpace_append _ _ hns]
  simp only [hs, if_true]

/-- When the trimmed value has no scheme word, the credential is the trimmed
value. -/
theorem extractToken_of_no_form (v : String)
    (h : ¬ ∃ (s : String) (rest : List Char),
      EqualFold s "Bearer" = true ∧ (TrimSpace v).data = s.data ++ ' ' :: rest) :
    extractToken v = TrimSpace v := by
  rw [extractToken_cut]
  by_cases h0 : TrimSpace v = ""
  · simp only [h0, if_true]
  · simp only [h0, if_false]
    cases hc : cutSpace (TrimSpace v).data with
    | none => rfl
    | some ab =>
      obtain ⟨a, b⟩ := ab
      by_cases hf : EqualFold ⟨a⟩ "Bearer" = true
      · exact absurd ⟨⟨a⟩, b, hf, (cutSpace_some _ a b hc).1⟩ h
      · simp [hf]

/-- A trimmed, non-empty text ends with a code point that is not white
space. -/
theorem trimmed_concat (t : String) (hne : t ≠ "") (ht : TrimSpace t = t) :
    ∃ (init : List Char) (c : Char), t.data = init ++ [c] ∧ isSpace c = false := by
  have hd : t.data ≠ [] := fun h => hne (String.ext h)
  have hsplit := (List.dropLast_append_getLast hd).symm
  refine ⟨t.data.dropLast, t.data.getLast hd, hsplit, ?_⟩
  apply (TrimSpace_ends t _).2
  rw [ht]
  exact List.getLast?_eq_getLast _ hd

/-- A scheme word equal to `Bearer` under case folding, a space and a trimmed
non-empty token form a trimmed text. -/
theorem TrimSpace_scheme_token (s t : String) (hs : EqualFold s "Bearer" = true)
    (hne : t ≠ "") (ht : TrimSpace t = t) :
    TrimSpace (s ++ " " ++ t) = s ++ " " ++ t := by
  obtain ⟨init, c, hdata, hc⟩ := trimmed_concat t hne ht
  obtain ⟨hlen, hsp⟩ := EqualFold_Bearer s hs
  apply String.ext
  have hd : (s ++ " " ++ t).data = s.data ++ ' ' :: t.data := by
    simp [String.data_append]
  simp only [TrimSpace, hd]
  cases hsd : s.data with
  | nil => rw [hsd] at hlen; cases hlen
  | cons x xs =>
    have hx : isSpace x = false := hsp x (by rw [hsd]; exact List.mem_cons_self _ _)
    rw [List.cons_append, trimLeft_of_head x _ hx, hdata]
    have : x :: (xs ++ ' ' :: (init ++ [c])) = (x :: (xs ++ ' ' :: init)) ++ [c] := by simp
    rw [this, trimRight_of_last _ c hc]

/-- The function `extractToken` computes the reference definition. -/
theorem extractToken_eq_extractTokenSpec (v : String) :
    extractToken v = extractTokenSpec v := by
  unfold extractTokenSpec
  simp only
  by_cases hC : EqualFold ⟨(TrimSpace v).data.take 6⟩ "Bearer" = true ∧
      ((TrimSpace v).data.drop 6).head? = some ' '
  · rw [if_pos hC]
    have hform : (TrimSpace v).data =
        (TrimSpace v).data.take 6 ++ ' ' :: (TrimSpace v).data.drop 7 := by
      have h1 := (List.take_append_drop 6 (TrimSpace v).data).symm
      have h2 : (TrimSpace v).data.drop 6 = ' ' :: (TrimSpace v).data.drop 7 := by
        have h3 : (TrimSpace v).data.drop 7 = ((TrimSpace v).data.drop 6).drop 1 := by
          rw [List.drop_drop]
        rw [h3]
        cases hd : (TrimSpace v).data.drop 6 with
        | nil => rw [hd] at hC; simp at hC
        | cons x xs =>
          rw [hd] at hC
          simp only [List.head?_cons, Option.some.injEq] at hC
          rw [hC.2]
          rfl
      rw [h2] at h1
      exact h1
    exact extractToken_of_form v ⟨(TrimSpace v).data.take 6⟩ _ hC.1 hform
  · rw [if_neg hC]
    apply extractToken_of_no_form
    rintro ⟨s, rest, hs, hw⟩
    apply hC
    have hlen := (EqualFold_Bearer s hs).1
    have ht : (TrimSpace v).data.take 6 = s.data := by
      rw [hw]
      exact List.take_left' hlen
    have hd : (TrimSpace v).data.drop 6 = ' ' :: rest := by
      rw [hw]
      exact List.drop_left' hlen
    refine ⟨?_, by rw [hd]; rfl⟩
    rw [ht]
    exact hs

/-- C11: for every header value `v`, `extractToken v` equals the reference
definition `extractTokenSpec v`: with `w` the trimmed value, if `w` is
`s ++ " " ++ rest` for an `s` equal to `Bearer` under case-insensitive
comparison the result is the trimmed `rest`, and otherwise it is `w`. In
particular, for every non-empty token `t` without leading or trailing white
space and every capitalisation `s` of `bearer`,
`extractToken (s ++ " " ++ t) = t`, and `extractToken t = t` when `t` has no
such scheme word in front. -/
theorem extractToken_eq_reference (v : String) :
    extractToken v = extractTokenSpec v ∧
    (∀ s rest : String, EqualFold s "Bearer" = true → TrimSpace v = s ++ " " ++ rest →
      extractToken v = TrimSpace rest) ∧
    ((¬ ∃ s rest : String, EqualFold s "Bearer" = true ∧ TrimSpace v = s ++ " " ++ rest) →
      extractToken v = TrimSpace v) ∧
    (∀ s t : String, EqualFold s "Bearer" = true → t ≠ "" → TrimSpace t = t →
      extractToken (s ++ " " ++ t) = t) ∧
    (∀ t : String, TrimSpace t = t →
      (¬ ∃ s rest : String, EqualFold s "Bearer" = true ∧ t = s ++ " " ++ rest) →
      extractToken t = t) := by
  have hdata : ∀ s rest : String, (s ++ " " ++ rest).data = s.data ++ ' ' :: rest.data := by
    intro s rest
    simp [String.data_append]
  have hno : ∀ w : String,
      (¬ ∃ s rest : String, EqualFold s "Bearer" = true ∧ TrimSpace w = s ++ " " ++ rest) →
      extractToken w = TrimSpace w := by
    intro w h
    apply extractToken_of_no_form
    rintro ⟨s, rest, hs, hw⟩
    exact h ⟨s, ⟨rest⟩, hs, String.ext (by rw [hw, hdata])⟩
  refine ⟨extractToken_eq_extractTokenSpec v, ?_, hno v, ?_, ?_⟩
  · intro s rest hs hw
    exact extractToken_of_form v s rest.data hs (by rw [hw, hdata])
  · intro s t hs hne ht
    have hw := TrimSpace_scheme_token s t hs hne ht
    have h := extractToken_of_form (s ++ " " ++ t) s t.data hs (by rw [hw, hdata])
    rw [h]
    exact ht
  · intro t ht h
    have h1 := hno t (by rw [ht]; exact h)
    rw [h1, ht]

/-- Evaluation of C11 on examples: the scheme word in any capitalisation is
removed, a raw token is kept, and the surrounding white space is trimmed. -/
theorem extractToken_eq_reference_witness :
    extractToken ("bEaReR" ++ " " ++ "abc.def.ghi") = "abc.def.ghi" ∧
    extractToken "abc.def.ghi" = "abc.def.ghi" ∧
    extractToken "  Bearer \t abc.def.ghi\n" = "abc.def.ghi" ∧
    extractToken "Basic abc" = "Basic abc" ∧
    extractTokenSpec "  Bearer \t abc.def.ghi\n" = "abc.def.ghi" :=
  ⟨(extractToken_eq_reference "").2.2.2.1 "bEaReR" "abc.def.ghi" (by decide) (by decide)
      (by decide),
    (extractToken_eq_reference "").2.2.2.2 "abc.def.ghi" (by decide) (by
      rintro ⟨s, rest, hs, h⟩
      have hlen := (EqualFold_Bearer s hs).1
      have hd := congrArg String.data h
      simp only [String.data_append] at hd
      have h6 := congrArg (fun l => l.drop 6 |>.head?) hd
      simp only [List.append_assoc, List.drop_left' hlen] at h6
      simp at h6),
    by decide, by decide, by decide⟩

end Dummy

namespace GoStr

/-- Trailing white space does not change the right trim. -/
theorem trimRight_append_blank (a b : List Char) (hb : ∀ c ∈ b, isSpace c = true) :
    trimRight (a ++ b) = trimRight a := by
  unfold trimRight
  rw [List.reverse_append, List.dropWhile_append]
  have h : List.dropWhile isSpace b.reverse = [] := by
    rw [List.dropWhile_eq_nil_iff]
    intro c hc
    exact hb c (List.mem_reverse.mp hc)
  simp [h]

/-- A text that starts and ends with code points that are not white space is
its own trim. -/
theorem TrimSpace_of_ends (s : String)
    (hh : ∀ c, s.data.head? = some c → isSpace c = false)
    (hl : ∀ c, s.data.getLast? = some c → isSpace c = false) : TrimSpace s = s := by
  apply String.ext
  simp only [TrimSpace]
  cases hd : s.data with
  | nil => rfl
  | cons x xs =>
    have hx : isSpace x = false := hh x (by rw [hd]; rfl)
    rw [trimLeft_of_head x xs hx]
    have hne : x :: xs ≠ [] := List.cons_ne_nil _ _
    have hsplit := (List.dropLast_append_getLast hne).symm
    have hc : isSpace ((x :: xs).getLast hne) = false :=
      hl _ (by rw [hd]; exact List.getLast?_eq_getLast _ hne)
    rw [hsplit, trimRight_of_last _ _ hc]

/-- Trimming is idempotent. -/
theorem TrimSpace_TrimSpace (s : String) : TrimSpace (TrimSpace s) = TrimSpace s :=
  TrimSpace_of_ends _ (fun c => (TrimSpace_ends s c).1) (fun c => (TrimSpace_ends s c).2)

end GoStr

namespace Dummy

open GoStr Pgx

/-- The credential is empty exactly for a blank header value. -/
theorem extractToken_eq_empty_iff (v : String) : extractToken v = "" ↔ blank v = true := by
  rw [← TrimSpace_eq_empty_iff]
  constructor
  · intro h
    by_contra h0
    rw [extractToken_cut, if_neg h0] at h
    cases hc : cutSpace (TrimSpace v).data with
    | none =>
      rw [hc] at h
      exact h0 h
    | some ab =>
      obtain ⟨a, b⟩ := ab
      rw [hc] at h
      simp only at h
      by_cases hf : EqualFold ⟨a⟩ "Bearer" = true
      · rw [if_pos hf] at h
        have hw := (cutSpace_some _ a b hc).1
        have hblank := (TrimSpace_eq_empty_iff ⟨b⟩).mp h
        unfold blank at hblank
        rw [List.all_eq_true] at hblank
        have hlast : (TrimSpace v).data.getLast? = some ((' ' :: b).getLast (by simp)) := by
          rw [hw, List.getLast?_append_of_ne_nil _ (by simp)]
          exact List.getLast?_eq_getLast _ _
        have hns := (TrimSpace_ends v _).2 hlast
        have hmem : (' ' :: b).getLast (by simp) ∈ ' ' :: b := List.getLast_mem _
        rcases List.mem_cons.mp hmem with h1 | h1
        · rw [h1] at hns
          exact absurd hns (by decide)
        · have := hblank _ h1
          rw [hns] at this
          cases this
      · rw [if_neg hf] at h
        exact h0 h
  · intro h
    rw [extractToken_cut, if_pos h]

/-- The credential is a trimmed text. -/
theorem TrimSpace_extractToken (v : String) :
    TrimSpace (extractToken v) = extractToken v := by
  rw [extractToken_cut]
  by_cases h0 : TrimSpace v = ""
  · rw [if_pos h0]
    decide
  · rw [if_neg h0]
    cases hc : cutSpace (TrimSpace v).data with
    | none => exact TrimSpace_TrimSpace v
    | some ab =>
      obtain ⟨a, b⟩ := ab
      simp only
      by_cases hf : EqualFold ⟨a⟩ "Bearer" = true
      · rw [if_pos hf]
        exact TrimSpace_TrimSpace _
      · rw [if_neg hf]
        exact TrimSpace_TrimSpace v

/-- For a blank header value `authorize` makes no call and reports the missing
header; otherwise it calls the validator once, with the credential. -/
theorem authorize_trace {σ : Type} (env : Env σ) (raw : String) :
    (extractToken raw = "" →
      authorize env raw = (.error (.unauthorized "missing Authorization header"), [])) ∧
    (extractToken raw ≠ "" → (authorize env raw).2 = [.validate (extractToken raw)]) := by
  unfold authorize
  constructor
  · intro h
    simp only [h, if_true]
  · intro h
    simp only [h, if_false]
    cases env.validator (extractToken raw) <;> rfl

/-- C12 as stated fails: for the blank header value of three spaces `authorize`
fails with an unauthorized error whose message is `missing Authorization
header`, which is not the message `missing credential`. -/
theorem authorize_blank_message_differs :
    extractToken "   " = "" ∧
    (authorize demoEnv "   ").1 = .error (.unauthorized "missing Authorization header") ∧
    (authorize demoEnv "   ").1 ≠ .error (.unauthorized "missing credential") := by
  decide

/-- C12 amended: for every header value from which the extracted credential is
empty, the value is empty or consists only of white space, `authorize` fails
with the unauthorized error of message `missing Authorization header`, and the
validator is not called. -/
theorem authorize_missing_header {σ : Type} (env : Env σ) (raw : String)
    (h : extractToken raw = "") :
    blank raw = true ∧
    (authorize env raw).1 = .error (.unauthorized "missing Authorization header") ∧
    validateCalls (authorize env raw).2 = [] := by
  have ha := (authorize_trace env raw).1 h
  refine ⟨(extractToken_eq_empty_iff raw).mp h, by rw [ha], by rw [ha]; rfl⟩

/-- Evaluation of the amended C12 on the examples: an empty header value and
one of white space only. -/
theorem authorize_missing_header_witness :
    (blank " \t " = true ∧
      (authorize demoEnv " \t ").1 = .error (.unauthorized "missing Authorization header") ∧
      validateCalls (authorize demoEnv " \t ").2 = []) ∧
    (authorize demoEnv "").1 = .error (.unauthorized "missing Authorization header") :=
  ⟨authorize_missing_header demoEnv " \t " (by decide), by decide⟩

theorem CreateItem_bad_subject {σ : Type} (env : Env σ) (st : σ) (p : CreateItemPayload)
    (claims : Claims) (err : String) (hauth : (authorize env p.Token).1 = .ok claims)
    (hsub : env.uuidParse claims.UserID = .error err) :
    FailsUntouched (CreateItem env st p) (.unauthorized "invalid subject claim") st := by
  rcases ha : authorize env p.Token with ⟨r, tr⟩
  rw [ha] at hauth
  simp only at hauth
  subst hauth
  obtain ⟨_, _, htr⟩ := authorize_ok env _ claims tr ha
  have hu : toUUID env claims.UserID = .error err := by simp only [toUUID, hsub]
  unfold CreateItem FailsUntouched
  rw [ha]
  simp only [hu]
  simp [htr, storeCalls]

theorem ListItems_bad_subject {σ : Type} (env : Env σ) (st : σ) (p : ListItemsPayload)
    (claims : Claims) (err : String) (hauth : (authorize env p.Token).1 = .ok claims)
    (hsub : env.uuidParse claims.UserID = .error err) :
    FailsUntouched (ListItems env st p) (.unauthorized "invalid subject claim") st := by
  rcases ha : authorize env p.Token with ⟨r, tr⟩
  rw [ha] at hauth
  simp only at hauth
  subst hauth
  obtain ⟨_, _, htr⟩ := authorize_ok env _ claims tr ha
  have hu : toUUID env claims.UserID = .error err := by simp only [toUUID, hsub]
  unfold ListItems FailsUntouched
  rw [ha]
  simp only [hu]
  simp [htr, storeCalls]

theorem GetItem_bad_subject {σ : Type} (env : Env σ) (st : σ) (p : ItemIDPayload)
    (claims : Claims) (err : String) (hauth : (authorize env p.Token).1 = .ok claims)
    (hsub : env.uuidParse claims.UserID = .error err) :
    FailsUntouched (GetItem env st p) (.unauthorized "invalid subject claim") st := by
  rcases ha : authorize env p.Token with ⟨r, tr⟩
  rw [ha] at hauth
  simp only at hauth
  subst hauth
  obtain ⟨_, _, htr⟩ := authorize_ok env _ claims tr ha
  have hu : toUUID env claims.UserID = .error err := by simp only [toUUID, hsub]
  unfold GetItem FailsUntouched
  rw [ha]
  simp only [hu]
  simp [htr, storeCalls]

theorem DeleteItem_bad_subject {σ : Type} (env : Env σ) (st : σ) (p : ItemIDPayload)
    (claims : Claims) (err : String) (hauth : (authorize env p.Token).1 = .ok claims)
    (hsub : env.uuidParse claims.UserID = .error err) :
    FailsUntouched (DeleteItem env st p) (.unauthorized "invalid subject claim") st := by
  rcases ha : authorize env p.Token with ⟨r, tr⟩
  rw [ha] at hauth
  simp only at hauth
  subst hauth
  obtain ⟨_, _, htr⟩ := authorize_ok env _ claims tr ha
  have hu : toUUID env claims.UserID = .error err := by simp only [toUUID, hsub]
  unfold DeleteItem FailsUntouched
  rw [ha]
  simp only [hu]
  simp [htr, storeCalls]

/-- C13: in each of CreateItem, ListItems, GetItem and DeleteItem, whenever
authorization succeeds and the subject of the claims is not a parseable UUID,
the operation fails with the unauthorized error for the invalid subject (its
message is `invalid subject claim`), makes no store call and leaves the store
state as it was. In GetItem and DeleteItem this holds for every item id, so a
malformed subject together with a malformed item id gives the unauthorized
error, not a not found error. -/
theorem invalid_subject_is_unauthorized {σ : Type} (env : Env σ) (st : σ)
    (pc : CreateItemPayload) (pl : ListItemsPayload) (pg pd : ItemIDPayload) :
    (∀ claims err, (authorize env pc.Token).1 = .ok claims →
      env.uuidParse claims.UserID = .error err →
      FailsUntouched (CreateItem env st pc) (.unauthorized "invalid subject claim") st) ∧
    (∀ claims err, (authorize env pl.Token).1 = .ok claims →
      env.uuidParse claims.UserID = .error err →
      FailsUntouched (ListItems env st pl) (.unauthorized "invalid subject claim") st) ∧
    (∀ claims err, (authorize env pg.Token).1 = .ok claims →
      env.uuidParse claims.UserID = .error err →
      FailsUntouched (GetItem env st pg) (.unauthorized "invalid subject claim") st) ∧
    (∀ claims err, (authorize env pd.Token).1 = .ok claims →
      env.uuidParse claims.UserID = .error err →
      FailsUntouched (DeleteItem env st pd) (.unauthorized "invalid subject claim") st) :=
  ⟨fun claims err => CreateItem_bad_subject env st pc claims err,
    fun claims err => ListItems_bad_subject env st pl claims err,
    fun claims err => GetItem_bad_subject env st pg claims err,
    fun claims err => DeleteItem_bad_subject env st pd claims err⟩

/-- Evaluation of C13 on the examples: the token `token-x` is valid and its
subject is not a UUID; with the malformed item id `zzz` both GetItem and
DeleteItem answer unauthorized and leave the store alone. -/
theorem invalid_subject_is_unauthorized_witness :
    demoEnv.uuidParse "zzz" = .error "invalid UUID length" ∧
    FailsUntouched (GetItem demoEnv [rowA] { Token := "Bearer token-x", ID := "zzz" })
      (.unauthorized "invalid subject claim") [rowA] ∧
    FailsUntouched (DeleteItem demoEnv [rowA] { Token := "Bearer token-x", ID := "zzz" })
      (.unauthorized "invalid subject claim") [rowA] :=
  ⟨by decide,
    (invalid_subject_is_unauthorized demoEnv [rowA]
      { Token := "", Name := "", Description := none } { Token := "" }
      { Token := "Bearer token-x", ID := "zzz" } { Token := "", ID := "" }).2.2.1
      { UserID := "not-a-uuid", Email := "x@x.com" } "invalid UUID length" (by decide)
      (by decide),
    (invalid_subject_is_unauthorized demoEnv [rowA]
      { Token := "", Name := "", Description := none } { Token := "" }
      { Token := "", ID := "" } { Token := "Bearer token-x", ID := "zzz" }).2.2.2
      { UserID := "not-a-uuid", Email := "x@x.com" } "invalid UUID length" (by decide)
      (by decide)⟩

/-- C16: for every header value `v`, `extractToken v` is the empty string if and
only if `v` is blank (empty or white space only), and the result is trimmed: it
neither starts nor ends with white space. So `authorize` reports a missing
credential only for blank values: for every value that is not blank, it calls
the validator exactly once, with the non-empty credential. The bare scheme word
`Bearer` followed only by white space gives the credential `Bearer`. -/
theorem extractToken_empty_iff_blank (v : String) :
    (extractToken v = "" ↔ blank v = true) ∧
    TrimSpace (extractToken v) = extractToken v ∧
    (∀ c, (extractToken v).data.head? = some c → isSpace c = false) ∧
    (∀ c, (extractToken v).data.getLast? = some c → isSpace c = false) ∧
    (∀ (σ : Type) (env : Env σ), blank v = false →
      extractToken v ≠ "" ∧ validateCalls (authorize env v).2 = [extractToken v]) ∧
    (∀ ws : String, blank ws = true → extractToken ("Bearer" ++ ws) = "Bearer") := by
  have htrim := TrimSpace_extractToken v
  refine ⟨extractToken_eq_empty_iff v, htrim, ?_, ?_, ?_, ?_⟩
  · intro c hc
    rw [← htrim] at hc
    exact (TrimSpace_ends _ c).1 hc
  · intro c hc
    rw [← htrim] at hc
    exact (TrimSpace_ends _ c).2 hc
  · intro σ env hb
    have hne : extractToken v ≠ "" := by
      intro h
      rw [(extractToken_eq_empty_iff v).mp h] at hb
      cases hb
    refine ⟨hne, ?_⟩
    rw [(authorize_trace env v).2 hne]
    rfl
  · intro ws hws
    have hT : TrimSpace ("Bearer" ++ ws) = "Bearer" := by
      apply String.ext
      simp only [TrimSpace, String.data_append]
      have h1 : trimLeft ("Bearer".data ++ ws.data) = "Bearer".data ++ ws.data :=
        trimLeft_of_head 'B' _ (by decide)
      unfold blank at hws
      rw [List.all_eq_true] at hws
      rw [h1, trimRight_append_blank _ _ hws]
      decide
    rw [extractToken_cut, hT]
    decide

/-- Evaluation of C16 on the examples: the header value `Bearer ` reaches the
validator as the literal `Bearer`, once. -/
theorem extractToken_empty_iff_blank_witness :
    extractToken "Bearer " = "Bearer" ∧
    blank "Bearer " = false ∧
    (extractToken "Bearer " ≠ "" ∧
      validateCalls (authorize demoEnv "Bearer ").2 = [extractToken "Bearer "]) ∧
    extractToken ("Bearer" ++ " \t ") = "Bearer" :=
  ⟨by decide, by decide,
    (extractToken_empty_iff_blank "Bearer ").2.2.2.2.1 (List DbItem) demoEnv (by decide),
    (extractToken_empty_iff_blank "").2.2.2.2.2 " \t " (by decide)⟩

end Dummy

namespace Identity

open Pgx

/-- A successful login found a user with a valid, non-empty id and returns the
token of `Issue` with `int(ttl.Seconds())`. -/
theorem Login_ok (s : Service) (nowIat nowExp : Int) (payload : Credentials)
    (result : TokenResult) (h : (Login s nowIat nowExp payload).1 = .ok result) :
    ∃ user, s.GetUserByEmail payload.Email = .ok user ∧
      result =
        { AccessToken := SignedString s.lib "HS256"
            [("sub", .str (s.uuidString user.ID.Bytes)),
             ("iat", .num ((nowIat / Second : Int) : Rat)),
             ("exp", .num (((nowExp + s.tokens.ttl) / Second : Int) : Rat)),
             ("email", .str user.Email)]
            s.tokens.secret,
          ExpiresIn := GoFloat.trunc (Seconds s.tokens.ttl) } := by
  unfold Login at h
  cases hg : s.GetUserByEmail payload.Email with
  | error err =>
    rw [hg] at h
    by_cases hn : err.isNoRows = true <;> simp [hn] at h
  | ok user =>
    rw [hg] at h
    simp only at h
    by_cases hc : s.CompareHashAndPassword user.PasswordHash payload.Password = true
    · by_cases hvalid : user.ID.Valid = true
      · by_cases hid : s.uuidString user.ID.Bytes = ""
        · simp [hc, Issue, hvalid, hid] at h
        · simp only [hc, if_true,
            Issue_ok s.lib s.uuidString s.tokens user nowIat nowExp hvalid hid,
            Except.ok.injEq] at h
          exact ⟨user, rfl, h.symm⟩
      · simp [hc, Issue, hvalid] at h
    · simp [hc] at h

/-- The time to live of a manager built by `NewTokenManager`. -/
theorem NewTokenManager_ttl (secret : String) (configured : Int) :
    (configured ≤ 0 → (NewTokenManager secret configured).ttl = Hour) ∧
    (0 < configured → (NewTokenManager secret configured).ttl = configured) := by
  unfold NewTokenManager
  constructor
  · intro h
    simp only [h, if_true]
  · intro h
    have : ¬ configured ≤ 0 := by omega
    simp only [this, if_false]

/-- C14 as stated fails: `expiresIn` is not always the difference of `exp` and
`iat`. With the time to live of one hour and the two clock readings of `Issue`
on either side of a second, the token has `iat = 0` and `exp = 3601` while
`expiresIn = 3600`; with a time to live of one second and a half issued at the
instant 0.6 s, the token has `iat = 0` and `exp = 2` while `expiresIn = 1`. -/
theorem login_expiresIn_differs :
    (∃ r, (Login demoService 999999999 1000000000
          { Email := "a@x.com", Password := "changeme123" }).1 = .ok r ∧
      r.ExpiresIn = 3600 ∧
      r.AccessToken.claims.lookup "iat" = some (.num 0) ∧
      r.AccessToken.claims.lookup "exp" = some (.num 3601)) ∧
    (∃ r, (Login demoServiceHalf 600000000 600000000
          { Email := "a@x.com", Password := "changeme123" }).1 = .ok r ∧
      r.ExpiresIn = 1 ∧
      r.AccessToken.claims.lookup "iat" = some (.num 0) ∧
      r.AccessToken.claims.lookup "exp" = some (.num 2)) :=
  ⟨⟨_, rfl, by decide!, by decide!, by decide!⟩, ⟨_, rfl, by decide!, by decide!, by decide!⟩⟩

/-- C14 amended: for every configured time to live and every successful Login,
`expiresIn` is `int(ttl.Seconds())` for the time to live of the manager, which
is the configured value when it is positive and one hour (`expiresIn = 3600`)
otherwise; when the time to live is a whole number of seconds, `expiresIn` is
that number. The token carries `iat`, the second of the first clock reading,
and `exp`, the second of the second clock reading plus the time to live (each
an integer that `float64` holds exactly, of magnitude below `2 ^ 53`); and when
the time to live is a whole number of seconds and both readings fall in the
same second, `expiresIn` equals `exp - iat`. -/
theorem login_expiresIn (s : Service) (secret : String) (configured nowIat nowExp : Int)
    (payload : Credentials) (result : TokenResult)
    (hm : s.tokens = NewTokenManager secret configured)
    (hlogin : (Login s nowIat nowExp payload).1 = .ok result) :
    result.ExpiresIn = GoFloat.trunc (Seconds s.tokens.ttl) ∧
    (configured ≤ 0 → s.tokens.ttl = Hour ∧ result.ExpiresIn = 3600) ∧
    (0 < configured → s.tokens.ttl = configured) ∧
    (∀ k : Int, s.tokens.ttl = k * Second → k.natAbs < 2 ^ 53 → result.ExpiresIn = k) ∧
    ((nowIat / Second).natAbs < 2 ^ 53 →
      result.AccessToken.claims.lookup "iat" = some (.num ((nowIat / Second : Int) : Rat))) ∧
    (((nowExp + s.tokens.ttl) / Second).natAbs < 2 ^ 53 →
      result.AccessToken.claims.lookup "exp" =
        some (.num (((nowExp + s.tokens.ttl) / Second : Int) : Rat))) ∧
    (∀ k : Int, s.tokens.ttl = k * Second → k.natAbs < 2 ^ 53 →
      nowIat / Second = nowExp / Second →
      (nowExp + s.tokens.ttl) / Second - nowIat / Second = result.ExpiresIn) := by
  obtain ⟨user, _, hres⟩ := Login_ok s nowIat nowExp payload result hlogin
  have hE : result.ExpiresIn = GoFloat.trunc (Seconds s.tokens.ttl) := by rw [hres]
  have httl := NewTokenManager_ttl secret configured
  rw [← hm] at httl
  have hwhole : ∀ k : Int, s.tokens.ttl = k * Second → k.natAbs < 2 ^ 53 →
      result.ExpiresIn = k := by
    intro k hk hb
    rw [hE, hk]
    exact Seconds_whole k hb
  refine ⟨hE, ?_, httl.2, hwhole, ?_, ?_, ?_⟩
  · intro hc
    have h1 := httl.1 hc
    exact ⟨h1, hwhole 3600 (by rw [h1]; rfl) (by decide)⟩
  · intro hr
    rw [hres]
    simp [TokenString.claims, SignedString, decodeClaims, List.lookup,
      GoFloat.round_intCast _ hr]
  · intro hr
    rw [hres]
    simp [TokenString.claims, SignedString, decodeClaims, List.lookup,
      GoFloat.round_intCast _ hr]
  · intro k hk hb hsame
    have hS : Second ≠ 0 := by decide
    rw [hwhole k hk hb, hk, Int.add_mul_ediv_right _ _ hS, hsame]
    omega

/-- Evaluation of the amended C14 on the examples: the manager built with the
configured value zero has a time to live of one hour, and a login at the
instant 5 ns returns `expiresIn = 3600 = exp - iat`. -/
theorem login_expiresIn_witness :
    (Login demoService 5 7 { Email := "a@x.com", Password := "changeme123" }).1 =
      .ok { AccessToken := SignedString demoLib "HS256"
              [("sub", .str Dummy.idA), ("iat", .num 0), ("exp", .num 3600),
               ("email", .str "a@x.com")] "secret",
            ExpiresIn := 3600 } ∧
    (3600 : Int) = GoFloat.trunc (Seconds demoService.tokens.ttl) ∧
    ((0 : Int) ≤ 0 → demoService.tokens.ttl = Hour ∧ (3600 : Int) = 3600) ∧
    ((5 : Int) / Second = 7 / Second →
      (7 + demoService.tokens.ttl) / Second - 5 / Second = 3600) :=
  have h := login_expiresIn demoService "secret" 0 5 7
      { Email := "a@x.com", Password := "changeme123" }
      { AccessToken := SignedString demoLib "HS256"
          [("sub", .str Dummy.idA), ("iat", .num 0), ("exp", .num 3600),
           ("email", .str "a@x.com")] "secret",
        ExpiresIn := 3600 } rfl (by decide!)
  ⟨by decide!, h.1, h.2.1, h.2.2.2.2.2.2 3600 (by decide) (by decide)⟩

/-- C15 as stated fails: when the store reports the uniqueness violation
(SQLSTATE 23505) for the email, `Register` returns a plain wrapped error, which
is of the same kind as the error it returns when the store cannot be reached;
no conflict error exists. -/
theorem register_duplicate_is_not_a_distinct_kind :
    (Register demoService
        { Email := "a@x.com", Password := "changeme123", DisplayName := "Ann" }).1 =
      .error (.wrapped "email already exists"
        "duplicate key value violates unique constraint") ∧
    (Register demoServiceDown
        { Email := "a@x.com", Password := "changeme123", DisplayName := "Ann" }).1 =
      .error (.wrapped "create user" "connection refused") ∧
    (IdError.wrapped "email already exists"
        "duplicate key value violates unique constraint").kind =
      (IdError.wrapped "create user" "connection refused").kind := by
  decide

/-- C15 amended: for every Register call in which the credential store reports
an error, `Register` fails and returns no user, with a plain wrapped error that
the design does not declare, whatever the storage failure. A uniqueness
violation (SQLSTATE 23505) is told apart from any other storage failure only by
the message, which starts with `email already exists` instead of
`create user`. -/
theorem register_store_failure (s : Service) (payload : RegisterPayload) (hashed : String)
    (err : StoreError)
    (hhash : s.GenerateFromPassword payload.Password = .ok hashed)
    (hstore : s.CreateUser
      { Email := payload.Email, PasswordHash := hashed, DisplayName := payload.DisplayName } =
        .error err) :
    (err.pgCode = some "23505" →
      (Register s payload).1 = .error (.wrapped "email already exists" err.msg)) ∧
    (err.pgCode ≠ some "23505" →
      (Register s payload).1 = .error (.wrapped "create user" err.msg)) ∧
    ∃ e, (Register s payload).1 = .error e ∧ e.kind = .undeclared := by
  have h1 : err.pgCode = some "23505" →
      (Register s payload).1 = .error (.wrapped "email already exists" err.msg) := by
    intro hc
    simp only [Register, hhash, hstore, hc, if_true]
  have h2 : err.pgCode ≠ some "23505" →
      (Register s payload).1 = .error (.wrapped "create user" err.msg) := by
    intro hc
    simp only [Register, hhash, hstore, hc, if_false]
  refine ⟨h1, h2, ?_⟩
  by_cases hc : err.pgCode = some "23505"
  · exact ⟨_, h1 hc, rfl⟩
  · exact ⟨_, h2 hc, rfl⟩

/-- Evaluation of the amended C15 on the examples: registering the email of
the registered user fails with the message for an existing email. -/
theorem register_store_failure_witness :
    (Register demoService
        { Email := "a@x.com", Password := "changeme123", DisplayName := "Ann" }).1 =
      .error (.wrapped "email already exists"
        "duplicate key value violates unique constraint") ∧
    (Register demoService
        { Email := "c@x.com", Password := "changeme123", DisplayName := "Cyd" }).1 =
      .ok { ID := Dummy.idB, Email := "c@x.com", DisplayName := "Cyd",
            CreatedAt := "1970-01-01T00:00:00Z" } :=
  ⟨(register_store_failure demoService
      { Email := "a@x.com", Password := "changeme123", DisplayName := "Ann" }
      "hash:changeme123"
      { msg := "duplicate key value violates unique constraint", isNoRows := false,
        pgCode := some "23505" } (by decide) (by decide)).1 (by decide),
    by decide⟩

end Identity
